import Mathlib

/-!
Verification of the monkey-rs interpreter/compiler/VM against its
natural-language specification.  The Rust sources are shallowly embedded:
pure functions become Lean functions, the mutable interpreter/compiler/VM
state is passed explicitly, machine integers are `Int` with explicit
two's-complement wrapping where it matters, and fallible Rust code returns
an explicit result type (`RRes`) that distinguishes recoverable errors
(Rust `Err(anyhow!(..))`) from process aborts (Rust panics).  Recursive
interpreters are given explicit fuel; every concrete execution in the
theorems below uses enough fuel for the program at hand.
-/

namespace Monkey

/-- Result of running a piece of Rust code: `ok` is a normal return, `err`
is a recoverable `anyhow` error (a Monkey-level error value), `fatal` is a
Rust panic (process abort), `timeout` is exhaustion of the embedding's fuel
(never produced by the Rust code itself). -/
inductive RRes (α : Type) where
  | ok (a : α)
  | err (msg : String)
  | fatal (msg : String)
  | timeout
  deriving Repr

def RRes.bind {α β : Type} : RRes α → (α → RRes β) → RRes β
  | .ok a, f => f a
  | .err m, _ => .err m
  | .fatal m, _ => .fatal m
  | .timeout, _ => .timeout

instance : Monad RRes where
  pure := RRes.ok
  bind := RRes.bind

/-! ## Machine integers

The Rust code computes on `i64` and `usize`.  Arithmetic on `i64` is
modelled with release-profile semantics: `+ - *` and unary negation wrap
(two's complement), while division panics on a zero divisor and on the one
overflowing pair `(i64::MIN, -1)` — those two checks are emitted by rustc
unconditionally, in every build profile.  `usize` casts of an `i64` take
the value modulo `2^64` (64-bit target). -/

def i64Min : Int := -(2 ^ 63)

def i64Max : Int := 2 ^ 63 - 1

/-- Two's-complement wrapping of an integer into the `i64` range. -/
def wrap64 (x : Int) : Int := (x + 2 ^ 63) % 2 ^ 64 - 2 ^ 63

/-- Rust `v as usize` for an `i64` value `v` (64-bit target): the value
modulo `2^64`, as a natural number. -/
def castUsize (x : Int) : Nat := (x % 2 ^ 64).toNat

/-- Rust `l / r` on `i64`: panics on a zero divisor ("attempt to divide by
zero") and on `i64::MIN / -1` ("attempt to divide with overflow"); otherwise
the quotient truncated toward zero (`Int.div`). -/
def rustI64Div (l r : Int) : RRes Int :=
  if r = 0 then .fatal "attempt to divide by zero"
  else if l = i64Min ∧ r = -1 then .fatal "attempt to divide with overflow"
  else .ok (Int.tdiv l r)

/-! ## Strings

Rust `String` is UTF-8: `s.len()` is the byte length, `s.chars().nth(i)`
is character based, `s.get(a..b)` slices by byte offsets and fails unless
both offsets lie on character boundaries.  A string is embedded as its
list of characters; byte counts come from the UTF-8 width of each
character (Rust `char::len_utf8`). -/

def charUtf8Size (c : Char) : Nat :=
  if c.toNat < 0x80 then 1
  else if c.toNat < 0x800 then 2
  else if c.toNat < 0x10000 then 3
  else 4

def strByteLen (s : List Char) : Nat := (s.map charUtf8Size).sum

/-- Drop the first `n` bytes of a string; `none` when `n` overruns the
string or falls inside a character (Rust byte-slicing boundary check). -/
def strDropBytes : List Char → Nat → Option (List Char)
  | s, 0 => some s
  | [], _ + 1 => none
  | c :: cs, n + 1 =>
    if charUtf8Size c ≤ n + 1 then strDropBytes cs (n + 1 - charUtf8Size c) else none

/-- Take the first `n` bytes of a string; `none` when `n` overruns the
string or falls inside a character. -/
def strTakeBytes : List Char → Nat → Option (List Char)
  | _, 0 => some []
  | [], _ + 1 => none
  | c :: cs, n + 1 =>
    if charUtf8Size c ≤ n + 1 then
      (strTakeBytes cs (n + 1 - charUtf8Size c)).map (fun t => c :: t)
    else none

/-- Rust `s.get(a..b)` on a `String`/`str`: the byte range `[a, b)` as a
string, or `none` when `a > b`, the range overruns the string, or either
offset is not a character boundary. -/
def rustStrGet (s : List Char) (a b : Nat) : Option (List Char) :=
  if a ≤ b then (strDropBytes s a).bind (fun t => strTakeBytes t (b - a)) else none

/-- Rust `v.get(a..b)` on a `Vec`: the element range `[a, b)`, or `none`
when `a > b` or `b` overruns the vector. -/
def rustListGet {α : Type} (v : List α) (a b : Nat) : Option (List α) :=
  if a ≤ b ∧ b ≤ v.length then some ((v.drop a).take (b - a)) else none

/-! ## Tokens (src/lexer/token.rs) -/

inductive Token where
  | illegal
  | eof
  | ident (value : String)
  | int (value : String)
  | string (value : String)
  | assign
  | plus
  | minus
  | bang
  | asterisk
  | slash
  | eq
  | notEq
  | lt
  | gt
  | comma
  | semicolon
  | colon
  | lparen
  | rparen
  | lbrace
  | rbrace
  | lbracket
  | rbracket
  | function
  | letT
  | trueT
  | falseT
  | ifT
  | elseT
  | returnT
  deriving Repr, DecidableEq

/-! ## AST (src/parser/ast.rs)

`Statement` and `Expression` as in the snapshot's ast.rs; in particular
`Expression::Function` carries `(params, body, optional self-name)`. -/

mutual
inductive Statement where
  | letS (name : String) (value : Expression)
  | ret (value : Expression)
  | expr (value : Expression)
  | block (statements : List Statement)
inductive Expression where
  | ident (name : String)
  | integer (value : Int)
  | boolean (value : Bool)
  | str (value : List Char)
  | array (elements : List Expression)
  | hash (pairs : List (Expression × Expression))
  | prefixE (op : Token) (right : Expression)
  | infixE (op : Token) (left : Expression) (right : Expression)
  | ifE (condition : Expression) (consequence : Statement) (alternative : Option Statement)
  | function (params : List String) (body : Statement) (selfName : Option String)
  | call (fn : Expression) (args : List Expression)
  | indexE (left : Expression) (idx : Expression)
  | sliceIndex (left : Expression) (start : Option Expression) (stop : Option Expression)
end

/-- A program is a sequence of statements. -/
structure Program where
  statements : List Statement

/-! ## Symbol table (src/compiler/symbol_table/mod.rs)

The Rust symbol tables form a chain of `Rc<RefCell<SymbolTable>>` linked by
`outer`; `resolve` mutates tables along the chain.  The chain is embedded
as a list of table records, innermost first; an empty `outer` corresponds
to the singleton chain. -/

inductive Scope where
  | global
  | local
  | builtin
  | free
  | function
  deriving Repr, DecidableEq

def Scope.name : Scope → String
  | .global => "GLOBAL"
  | .local => "LOCAL"
  | .builtin => "BUILTIN"
  | .free => "FREE"
  | .function => "FUNCTION"

structure Symbol where
  name : String
  scope : Scope
  index : Nat
  deriving Repr, DecidableEq

/-- One `SymbolTable` record (its `outer` pointer is the rest of the chain). -/
structure TableData where
  store : List (String × Symbol)
  numDefinitions : Nat
  freeSymbols : List Symbol
  deriving Repr, DecidableEq

/-- A chain of symbol tables, innermost first; the global table is last. -/
def SymChain : Type := List TableData

/-- `HashMap::insert`: replace the binding of `name` if present, else add it. -/
def storeInsert (store : List (String × Symbol)) (name : String) (sym : Symbol) :
    List (String × Symbol) :=
  if store.any (fun p => p.1 = name) then
    store.map (fun p => if p.1 = name then (name, sym) else p)
  else store ++ [(name, sym)]

/-- `HashMap::get` on the store. -/
def storeGet (store : List (String × Symbol)) (name : String) : Option Symbol :=
  (store.find? (fun p => p.1 = name)).map (fun p => p.2)

def emptyTable : TableData := { store := [], numDefinitions := 0, freeSymbols := [] }

/-- `SymbolTable::define` on the innermost table of the chain. -/
def define (chain : SymChain) (name : String) : Symbol × SymChain :=
  match chain with
  | [] => (⟨name, .global, 0⟩, [])
  | t :: rest =>
    let scope : Scope := if rest.isEmpty then .global else .local
    let sym : Symbol := ⟨name, scope, t.numDefinitions⟩
    (sym, { t with store := storeInsert t.store name sym,
                   numDefinitions := t.numDefinitions + 1 } :: rest)

/-- `SymbolTable::define_free` on a table: record the original symbol in
`free_symbols` and bind a FREE symbol of the same name in the store. -/
def defineFree (t : TableData) (original : Symbol) : Symbol × TableData :=
  let freeSymbols := t.freeSymbols ++ [original]
  let sym : Symbol := ⟨original.name, .free, freeSymbols.length - 1⟩
  (sym, { t with freeSymbols := freeSymbols,
                 store := storeInsert t.store original.name sym })

/-- `SymbolTable::resolve` on the chain: search the innermost store, else
resolve in the rest of the chain (which may rewrite those tables); a symbol
found outside whose scope is neither GLOBAL nor BUILTIN is converted into a
FREE symbol of the innermost table. -/
def resolve (chain : SymChain) (name : String) : Option Symbol × SymChain :=
  match chain with
  | [] => (none, [])
  | t :: rest =>
    match storeGet t.store name with
    | some sym => (some sym, t :: rest)
    | none =>
      match resolve rest name with
      | (none, rest') => (none, t :: rest')
      | (some sym, rest') =>
        if sym.scope = .global ∨ sym.scope = .builtin then (some sym, t :: rest')
        else
          let (free, t') := defineFree t sym
          (some free, t' :: rest')

/-! ## Instruction encoding (src/code/mod.rs)

The snapshot's `Opcode` enum declares exactly these 27 opcodes (there is no
`OpGetBuiltin`, `OpClosure`, `OpGetFree` or `OpCurrentClosure` in it, even
though vm/mod.rs carries match arms for those names). -/

inductive Opcode where
  | opConstant
  | opPop
  | opAdd
  | opSub
  | opMul
  | opDiv
  | opTrue
  | opFalse
  | opEqual
  | opNotEqual
  | opGreaterThan
  | opMinus
  | opBang
  | opJumpNotTruthy
  | opJump
  | opNull
  | opGetGlobal
  | opSetGlobal
  | opArray
  | opHash
  | opIndex
  | opSliceIndex
  | opCall
  | opReturnValue
  | opReturn
  | opGetLocal
  | opSetLocal
  deriving Repr, DecidableEq

/-- The discriminant of an opcode (`op as u8`), following declaration order. -/
def Opcode.toByte : Opcode → Nat
  | .opConstant => 0
  | .opPop => 1
  | .opAdd => 2
  | .opSub => 3
  | .opMul => 4
  | .opDiv => 5
  | .opTrue => 6
  | .opFalse => 7
  | .opEqual => 8
  | .opNotEqual => 9
  | .opGreaterThan => 10
  | .opMinus => 11
  | .opBang => 12
  | .opJumpNotTruthy => 13
  | .opJump => 14
  | .opNull => 15
  | .opGetGlobal => 16
  | .opSetGlobal => 17
  | .opArray => 18
  | .opHash => 19
  | .opIndex => 20
  | .opSliceIndex => 21
  | .opCall => 22
  | .opReturnValue => 23
  | .opReturn => 24
  | .opGetLocal => 25
  | .opSetLocal => 26

/-- `Opcode::try_from(u8)`: defined exactly on the declared discriminants. -/
def Opcode.fromByte (b : Nat) : Option Opcode :=
  if b = 0 then some .opConstant
  else if b = 1 then some .opPop
  else if b = 2 then some .opAdd
  else if b = 3 then some .opSub
  else if b = 4 then some .opMul
  else if b = 5 then some .opDiv
  else if b = 6 then some .opTrue
  else if b = 7 then some .opFalse
  else if b = 8 then some .opEqual
  else if b = 9 then some .opNotEqual
  else if b = 10 then some .opGreaterThan
  else if b = 11 then some .opMinus
  else if b = 12 then some .opBang
  else if b = 13 then some .opJumpNotTruthy
  else if b = 14 then some .opJump
  else if b = 15 then some .opNull
  else if b = 16 then some .opGetGlobal
  else if b = 17 then some .opSetGlobal
  else if b = 18 then some .opArray
  else if b = 19 then some .opHash
  else if b = 20 then some .opIndex
  else if b = 21 then some .opSliceIndex
  else if b = 22 then some .opCall
  else if b = 23 then some .opReturnValue
  else if b = 24 then some .opReturn
  else if b = 25 then some .opGetLocal
  else if b = 26 then some .opSetLocal
  else none

/-- The operand widths declared by each opcode's `Definition`. -/
def Opcode.operandWidths : Opcode → List Nat
  | .opConstant => [2]
  | .opJumpNotTruthy => [2]
  | .opJump => [2]
  | .opGetGlobal => [2]
  | .opSetGlobal => [2]
  | .opArray => [2]
  | .opHash => [2]
  | .opCall => [1]
  | .opGetLocal => [1]
  | .opSetLocal => [1]
  | _ => []

def Opcode.name : Opcode → String
  | .opConstant => "OpConstant"
  | .opPop => "OpPop"
  | .opAdd => "OpAdd"
  | .opSub => "OpSub"
  | .opMul => "OpMul"
  | .opDiv => "OpDiv"
  | .opTrue => "OpTrue"
  | .opFalse => "OpFalse"
  | .opEqual => "OpEqual"
  | .opNotEqual => "OpNotEqual"
  | .opGreaterThan => "OpGreaterThan"
  | .opMinus => "OpMinus"
  | .opBang => "OpBang"
  | .opJumpNotTruthy => "OpJumpNotTruthy"
  | .opJump => "OpJump"
  | .opNull => "OpNull"
  | .opGetGlobal => "OpGetGlobal"
  | .opSetGlobal => "OpSetGlobal"
  | .opArray => "OpArray"
  | .opHash => "OpHash"
  | .opIndex => "OpIndex"
  | .opSliceIndex => "OpSliceIndex"
  | .opCall => "OpCall"
  | .opReturnValue => "OpReturnValue"
  | .opReturn => "OpReturn"
  | .opGetLocal => "OpGetLocal"
  | .opSetLocal => "OpSetLocal"

/-- Operand bytes for one operand of the given width (big endian, the
value masked with `0xff` per byte as in `make`). -/
def encodeOperand (width : Nat) (operand : Nat) : List Nat :=
  if width = 2 then [operand / 256 % 256, operand % 256]
  else [operand % 256]

/-- The operand area of an instruction: one encoded operand per width; a
width with no matching operand keeps the zero bytes `make` pre-filled. -/
def encodeOperands : List Nat → List Nat → List Nat
  | [], _ => []
  | w :: ws, [] => List.replicate w 0 ++ encodeOperands ws []
  | w :: ws, o :: os => encodeOperand w o ++ encodeOperands ws os

/-- `make(op, operands)`: the opcode byte followed by its big-endian
operand bytes. -/
def make (op : Opcode) (operands : List Nat) : List Nat :=
  op.toByte :: encodeOperands op.operandWidths operands

/-- `read_u16`: big-endian 16-bit read of the first two bytes. -/
def readU16 (bytes : List Nat) : Nat :=
  (bytes.headD 0) * 256 + ((bytes.drop 1).headD 0)

/-! ## Object model (src/object/mod.rs)

One runtime object type serves both the VM side (crate::object) and the
evaluator side (src/eval/object.rs); each side uses only its own variants.
A `BuiltInFunction` (a Rust `fn` pointer) is represented by the name it is
registered under; an evaluator `Function`'s captured environment (a Rust
`Rc<RefCell<Environment>>`) is the index of its cell in the evaluator's
environment heap. -/

structure CompiledFn where
  instructions : List Nat
  numLocals : Nat
  numParameters : Nat
  deriving Repr, DecidableEq

inductive HashKey where
  | integer (v : Int)
  | boolean (v : Bool)
  | str (v : List Char)
  deriving Repr, DecidableEq

inductive Obj where
  | integer (v : Int)
  | boolean (v : Bool)
  | str (v : List Char)
  | array (elements : List Obj)
  | hash (pairs : List (HashKey × Obj))
  | returnValue (v : Obj)
  | function (params : List String) (body : Statement) (env : Nat)
  | builtInFunction (name : String)
  | compiledFunction (f : CompiledFn)
  | closure (func : CompiledFn) (free : List Obj)
  | null

def Obj.isTruthy : Obj → Bool
  | .boolean b => b
  | .null => false
  | _ => true

def Obj.typeName : Obj → String
  | .integer _ => "INTEGER"
  | .boolean _ => "BOOLEAN"
  | .str _ => "STRING"
  | .array _ => "ARRAY"
  | .hash _ => "HASH"
  | .returnValue _ => "RETURN_VALUE"
  | .function _ _ _ => "FUNCTION"
  | .builtInFunction _ => "BUILTIN"
  | .compiledFunction _ => "COMPILED_FUNCTION"
  | .closure _ _ => "CLOSURE"
  | .null => "NULL"

/-- `From<Object> for Option<HashKey>`. -/
def Obj.toHashKey : Obj → Option HashKey
  | .integer v => some (.integer v)
  | .boolean v => some (.boolean v)
  | .str v => some (.str v)
  | _ => none

/-- `HashMap::insert` on an object hash (replace or add the key). -/
def hashInsert (pairs : List (HashKey × Obj)) (key : HashKey) (v : Obj) :
    List (HashKey × Obj) :=
  if pairs.any (fun p => p.1 = key) then
    pairs.map (fun p => if p.1 = key then (key, v) else p)
  else pairs ++ [(key, v)]

/-- `HashMap::get` on an object hash. -/
def hashGet (pairs : List (HashKey × Obj)) (key : HashKey) : Option Obj :=
  (pairs.find? (fun p => p.1 = key)).map (fun p => p.2)

/-! ## VM state (src/vm/mod.rs, src/vm/frame.rs)

vm/mod.rs constructs frames from closures and reads `frame.cl`, so a frame
carries a closure (frame.rs in the snapshot still declares a
`CompiledFunction` field — a stale file the rest of the VM no longer type
checks against).  The `frames` vector is kept top-first (the current frame
is the head); `frames_index` always equals the vector's length. -/

structure Closure where
  func : CompiledFn
  free : List Obj

structure Frame where
  cl : Closure
  ip : Nat
  basePointer : Nat

def Frame.new (cl : Closure) (basePointer : Nat) : Frame :=
  { cl := cl, ip := 0, basePointer := basePointer }

def Frame.instructions (f : Frame) : List Nat := f.cl.func.instructions

def STACK_SIZE : Nat := 2048
def GLOBALS_SIZE : Nat := 65536
def MAX_FRAMES : Nat := 1024

structure VMState where
  constants : List Obj
  stack : List Obj
  sp : Nat
  globals : List Obj
  frames : List Frame
  framesIndex : Nat

/-- `Bytecode`: the compiled instructions plus the constant pool. -/
structure Bytecode where
  instructions : List Nat
  constants : List Obj

/-- `VM::new(bytecode)`: wrap the instructions in a main closure at frame 0. -/
def VMState.new (bytecode : Bytecode) : VMState :=
  let mainFn : CompiledFn :=
    { instructions := bytecode.instructions, numLocals := 0, numParameters := 0 }
  let mainClosure : Closure := { func := mainFn, free := [] }
  { constants := bytecode.constants
    stack := List.replicate STACK_SIZE Obj.null
    sp := 0
    globals := List.replicate GLOBALS_SIZE Obj.null
    frames := [Frame.new mainClosure 0]
    framesIndex := 1 }

/-- `VM::push`, split so that the failure branch visibly returns the state
untouched: `(state', optional error)`.  The overflow check comes before any
write, exactly as in the source. -/
def pushSt (s : VMState) (obj : Obj) : VMState × Option String :=
  if s.sp ≥ STACK_SIZE then (s, some "stack overflow")
  else ({ s with stack := s.stack.set s.sp obj, sp := s.sp + 1 }, none)

def push (s : VMState) (obj : Obj) : RRes VMState :=
  match pushSt s obj with
  | (s', none) => .ok s'
  | (_, some msg) => .err msg

/-- `VM::pop`: decrement `sp` and return the element there (it stays in the
stack storage). -/
def pop (s : VMState) : RRes (Obj × VMState) :=
  if s.sp = 0 then .err "stack underflow"
  else .ok (s.stack.getD (s.sp - 1) Obj.null, { s with sp := s.sp - 1 })

/-- `VM::last_popped_stack_elem`. -/
def lastPoppedStackElem (s : VMState) : Obj := s.stack.getD s.sp Obj.null

/-- `VM::current_frame` (`frames[frames_index - 1]`); `none` when the frame
vector is empty, where the Rust indexing would panic. -/
def currentFrame (s : VMState) : Option Frame := s.frames.head?

/-- Replace the current (top) frame. -/
def setCurrentFrame (s : VMState) (f : Frame) : VMState :=
  { s with frames := f :: s.frames.tail }

/-- Set the current frame's `ip`. -/
def setFrameIp (s : VMState) (ip : Nat) : VMState :=
  match s.frames with
  | [] => s
  | f :: rest => { s with frames := { f with ip := ip } :: rest }

/-- `VM::push_frame`. -/
def pushFrame (s : VMState) (frame : Frame) : RRes VMState :=
  if s.framesIndex ≥ MAX_FRAMES then .err "frame overflow"
  else .ok { s with frames := frame :: s.frames, framesIndex := s.framesIndex + 1 }

/-- `VM::pop_frame` (the returned frame plus the shrunk state). -/
def popFrame (s : VMState) : RRes (Frame × VMState) :=
  match s.frames with
  | [] => .err "frame underflow"
  | f :: rest => .ok (f, { s with frames := rest, framesIndex := s.framesIndex - 1 })

/-! ## Built-in functions of the VM side (src/object/builtins.rs) -/

def BUILTINS : List String := ["len", "puts", "first", "last", "rest", "push"]

def vmBuiltinLen (args : List Obj) : RRes Obj :=
  if args.length ≠ 1 then
    .err ("wrong number of arguments. got=" ++ toString args.length ++ ", want=1")
  else
    match args.getD 0 Obj.null with
    | .str value => .ok (.integer (strByteLen value))
    | .array values => .ok (.integer values.length)
    | other => .err ("argument to \x60len\x60 not supported, got " ++ other.typeName)

def vmBuiltinFirst (args : List Obj) : RRes Obj :=
  if args.length ≠ 1 then
    .err ("wrong number of arguments. got=" ++ toString args.length ++ ", want=1")
  else
    match args.getD 0 Obj.null with
    | .array values =>
      match values with
      | [] => .ok .null
      | v :: _ => .ok v
    | other => .err ("argument to \x60first\x60 must be ARRAY, got " ++ other.typeName)

def vmBuiltinLast (args : List Obj) : RRes Obj :=
  if args.length ≠ 1 then
    .err ("wrong number of arguments. got=" ++ toString args.length ++ ", want=1")
  else
    match args.getD 0 Obj.null with
    | .array values =>
      match values with
      | [] => .ok .null
      | vs => .ok (vs.getLastD .null)
    | other => .err ("argument to \x60last\x60 must be ARRAY, got " ++ other.typeName)

def vmBuiltinRest (args : List Obj) : RRes Obj :=
  if args.length ≠ 1 then
    .err ("wrong number of arguments. got=" ++ toString args.length ++ ", want=1")
  else
    match args.getD 0 Obj.null with
    | .array values =>
      match values with
      | [] => .ok .null
      | _ :: rest => .ok (.array rest)
    | other => .err ("argument to \x60rest\x60 must be ARRAY, got " ++ other.typeName)

def vmBuiltinPush (args : List Obj) : RRes Obj :=
  if args.length ≠ 2 then
    .err ("wrong number of arguments. got=" ++ toString args.length ++ ", want=2")
  else
    match args.getD 0 Obj.null with
    | .array values => .ok (.array (values ++ [args.getD 1 Obj.null]))
    | other => .err ("argument to \x60push\x60 must be ARRAY, got " ++ other.typeName)

/-- `puts` prints its arguments; the embedding keeps only its return value. -/
def vmBuiltinPuts (_args : List Obj) : RRes Obj := .ok .null

/-- `get_builtin` of src/object/builtins.rs, dispatching a function pointer
by the name it is registered under. -/
def vmGetBuiltin (name : String) : Option (List Obj → RRes Obj) :=
  if name = "len" then some vmBuiltinLen
  else if name = "first" then some vmBuiltinFirst
  else if name = "last" then some vmBuiltinLast
  else if name = "rest" then some vmBuiltinRest
  else if name = "push" then some vmBuiltinPush
  else if name = "puts" then some vmBuiltinPuts
  else none

/-! ## VM execution helpers (src/vm/mod.rs) -/

/-- `VM::exec_binary_int_op`.  `+ - *` wrap (release profile); `/` has
Rust's unconditional panic checks (`rustI64Div`). -/
def execBinaryIntOp (s : VMState) (op : Opcode) (left right : Int) : RRes VMState :=
  match op with
  | .opAdd => push s (.integer (wrap64 (left + right)))
  | .opSub => push s (.integer (wrap64 (left - right)))
  | .opMul => push s (.integer (wrap64 (left * right)))
  | .opDiv =>
    match rustI64Div left right with
    | .ok result => push s (.integer result)
    | .err m => .err m
    | .fatal m => .fatal m
    | .timeout => .timeout
  | other => .err ("unknown integer operator: " ++ other.name)

/-- `VM::exec_binary_string_op`. -/
def execBinaryStringOp (s : VMState) (op : Opcode) (left right : List Char) : RRes VMState :=
  match op with
  | .opAdd => push s (.str (left ++ right))
  | other => .err ("unknown string operator: " ++ other.name)

/-- `VM::exec_binary_op`: pop right then left, dispatch on the pair. -/
def execBinaryOp (s : VMState) (op : Opcode) : RRes VMState :=
  match pop s with
  | .ok (right, s1) =>
    match pop s1 with
    | .ok (left, s2) =>
      match left, right with
      | .integer l, .integer r => execBinaryIntOp s2 op l r
      | .str l, .str r => execBinaryStringOp s2 op l r
      | l, r =>
        .err ("unsupported types for binary operation: " ++ l.typeName ++ " " ++ r.typeName)
    | .err m => .err m
    | .fatal m => .fatal m
    | .timeout => .timeout
  | .err m => .err m
  | .fatal m => .fatal m
  | .timeout => .timeout

/-- `VM::exec_comparison_int_op`. -/
def execComparisonIntOp (s : VMState) (op : Opcode) (left right : Int) : RRes VMState :=
  match op with
  | .opEqual => push s (.boolean (left = right))
  | .opNotEqual => push s (.boolean (left ≠ right))
  | .opGreaterThan => push s (.boolean (right < left))
  | other => .err ("unknown integer operator: " ++ other.name)

/-- `VM::exec_comparison`. -/
def execComparison (s : VMState) (op : Opcode) : RRes VMState :=
  match pop s with
  | .ok (right, s1) =>
    match pop s1 with
    | .ok (left, s2) =>
      match left, right with
      | .integer l, .integer r => execComparisonIntOp s2 op l r
      | .boolean l, .boolean r =>
        match op with
        | .opEqual => push s2 (.boolean (l = r))
        | .opNotEqual => push s2 (.boolean (l ≠ r))
        | other => .err ("unknown boolean operator: " ++ other.name)
      | l, r =>
        .err ("unsupported types for comparison: " ++ l.typeName ++ " " ++ r.typeName)
    | .err m => .err m
    | .fatal m => .fatal m
    | .timeout => .timeout
  | .err m => .err m
  | .fatal m => .fatal m
  | .timeout => .timeout

/-- `VM::exec_bang_op`. -/
def execBangOp (s : VMState) : RRes VMState :=
  match pop s with
  | .ok (operand, s1) =>
    match operand with
    | .boolean value => push s1 (.boolean (!value))
    | .null => push s1 (.boolean true)
    | _ => push s1 (.boolean false)
  | .err m => .err m
  | .fatal m => .fatal m
  | .timeout => .timeout

/-- `VM::exec_minus_op` (`-value` wraps in the release profile). -/
def execMinusOp (s : VMState) : RRes VMState :=
  match pop s with
  | .ok (operand, s1) =>
    match operand with
    | .integer value => push s1 (.integer (wrap64 (-value)))
    | other => .err ("unsupported type for negation: " ++ other.typeName)
  | .err m => .err m
  | .fatal m => .fatal m
  | .timeout => .timeout

/-- `VM::build_array`: the stack values in `[start_index, end_index)`. -/
def buildArray (s : VMState) (startIndex endIndex : Nat) : Obj :=
  .array ((s.stack.drop startIndex).take (endIndex - startIndex))

/-- The `chunks_exact(2)` fold of `VM::build_hash` (a trailing odd element
is ignored, exactly as `chunks_exact` does). -/
def buildHashPairs : List Obj → List (HashKey × Obj) → RRes (List (HashKey × Obj))
  | key :: value :: rest, pairs =>
    match key.toHashKey with
    | some k => buildHashPairs rest (hashInsert pairs k value)
    | none => .err ("unusable as hash key: " ++ key.typeName)
  | _, pairs => .ok pairs

/-- `VM::build_hash`. -/
def buildHash (s : VMState) (startIndex endIndex : Nat) : RRes Obj :=
  match buildHashPairs ((s.stack.drop startIndex).take (endIndex - startIndex)) [] with
  | .ok pairs => .ok (.hash pairs)
  | .err m => .err m
  | .fatal m => .fatal m
  | .timeout => .timeout

/-- `VM::exec_array_index`: a negative index has the length added, then the
index is cast to `usize` and looked up; out of range yields Null. -/
def execArrayIndex (s : VMState) (elements : List Obj) (index : Int) : RRes VMState :=
  let index : Int := if index < 0 then (elements.length : Int) + index else index
  match elements.get? (castUsize index) with
  | some elem => push s elem
  | none => push s .null

/-- `VM::exec_hash_index`. -/
def execHashIndex (s : VMState) (pairs : List (HashKey × Obj)) (index : Obj) : RRes VMState :=
  match index.toHashKey with
  | none => .err ("unusable as hash key: " ++ index.typeName)
  | some key =>
    match hashGet pairs key with
    | some value => push s value
    | none => push s .null

/-- `VM::exec_string_index`: the negative adjustment uses the BYTE length
(`string.len()`), but the lookup is `chars().nth(..)` — character based. -/
def execStringIndex (s : VMState) (string : List Char) (index : Int) : RRes VMState :=
  let index : Int := if index < 0 then (strByteLen string : Int) + index else index
  match string.get? (castUsize index) with
  | some ch => push s (.str [ch])
  | none => push s .null

/-- `VM::exec_index_op`. -/
def execIndexOp (s : VMState) (left index : Obj) : RRes VMState :=
  match left, index with
  | .array elements, .integer index => execArrayIndex s elements index
  | .hash pairs, index => execHashIndex s pairs index
  | .str string, .integer index => execStringIndex s string index
  | left, index =>
    .err ("index operator not supported: " ++ left.typeName ++ "[" ++ index.typeName ++ "]")

/-- `VM::exec_array_slice_index`.  Null bounds default to `0` / `len`; a
negative bound has `len` added (with no further clamp below zero); a bound
above `len` is clamped to `len`; the adjusted bounds are cast to `usize`
(`castUsize` — a still-negative bound wraps to a huge offset) and looked up
with `Vec::get(a..b)`, a failed lookup giving an empty array. -/
def execArraySliceIndex (s : VMState) (elements : List Obj) (start stop : Obj) :
    RRes VMState :=
  match start with
  | .integer start' =>
    match stop with
    | .integer stop' => execArraySliceCore s elements start' stop'
    | .null => execArraySliceCore s elements start' (elements.length : Int)
    | _ => .err "slice stop must be an integer"
  | .null =>
    match stop with
    | .integer stop' => execArraySliceCore s elements 0 stop'
    | .null => execArraySliceCore s elements 0 (elements.length : Int)
    | _ => .err "slice stop must be an integer"
  | _ => .err "slice start must be an integer"
where
  /-- The shared tail of the function, after both bounds are integers. -/
  execArraySliceCore (s : VMState) (elements : List Obj) (start stop : Int) :
      RRes VMState :=
    let len : Int := (elements.length : Int)
    let start := if start < 0 then len + start else if start > len then len else start
    let stop := if stop < 0 then len + stop else if stop > len then len else stop
    match rustListGet elements (castUsize start) (castUsize stop) with
    | some slice => push s (.array slice)
    | none => push s (.array [])

/-- `VM::exec_string_slice_index`: as the array case, but lengths are byte
lengths and the lookup is Rust string slicing with its character-boundary
check. -/
def execStringSliceIndex (s : VMState) (string : List Char) (start stop : Obj) :
    RRes VMState :=
  match start with
  | .integer start' =>
    match stop with
    | .integer stop' => execStringSliceCore s string start' stop'
    | .null => execStringSliceCore s string start' (strByteLen string : Int)
    | _ => .err "slice stop must be an integer"
  | .null =>
    match stop with
    | .integer stop' => execStringSliceCore s string 0 stop'
    | .null => execStringSliceCore s string 0 (strByteLen string : Int)
    | _ => .err "slice stop must be an integer"
  | _ => .err "slice start must be an integer"
where
  /-- The shared tail of the function, after both bounds are integers. -/
  execStringSliceCore (s : VMState) (string : List Char) (start stop : Int) :
      RRes VMState :=
    let len : Int := (strByteLen string : Int)
    let start := if start < 0 then len + start else if start > len then len else start
    let stop := if stop < 0 then len + stop else if stop > len then len else stop
    match rustStrGet string (castUsize start) (castUsize stop) with
    | some slice => push s (.str slice)
    | none => push s (.str [])

/-- `VM::exec_slice_index_op`. -/
def execSliceIndexOp (s : VMState) (left start stop : Obj) : RRes VMState :=
  match left with
  | .array elements => execArraySliceIndex s elements start stop
  | .str string => execStringSliceIndex s string start stop
  | left =>
    .err ("slice index operator not supported: " ++ left.typeName ++ "[" ++
      start.typeName ++ ":" ++ stop.typeName ++ "]")

/-- The arity-error message of `VM::call_closure`. -/
def arityMsg (want got : Nat) : String :=
  "wrong number of arguments: want=" ++ toString want ++ ", got=" ++ toString got

/-- `VM::call_closure`: check the arity, then push a frame whose base
pointer is `sp - num_args` and reserve the local slots. -/
def callClosure (s : VMState) (cl : Closure) (numArgs : Nat) : RRes VMState :=
  let numLocals := cl.func.numLocals
  let numParams := cl.func.numParameters
  if numArgs ≠ numParams then .err (arityMsg numParams numArgs)
  else
    let frame := Frame.new cl (s.sp - numArgs)
    let s1 := { s with sp := frame.basePointer + numLocals }
    pushFrame s1 frame

/-- `VM::call_builtin`: collect the top `num_args` stack values, advance the
caller's `ip` past the operand, run the function, drop callee and
arguments, push the result. -/
def callBuiltin (s : VMState) (name : String) (numArgs : Nat) : RRes VMState :=
  let args := (s.stack.drop (s.sp - numArgs)).take numArgs
  let s1 := match currentFrame s with
    | some f => setFrameIp s (f.ip + 1)
    | none => s
  match vmGetBuiltin name with
  | none => .fatal "builtin function pointer not registered"
  | some builtin =>
    match builtin args with
    | .ok result => push { s1 with sp := s1.sp - numArgs - 1 } result
    | .err m => .err m
    | .fatal m => .fatal m
    | .timeout => .timeout

/-- `VM::exec_call`: the callee sits below the arguments at
`stack[sp - 1 - num_args]`. -/
def execCall (s : VMState) (numArgs : Nat) : RRes VMState :=
  match s.stack.getD (s.sp - 1 - numArgs) Obj.null with
  | .closure func free => callClosure s { func := func, free := free } numArgs
  | .builtInFunction name => callBuiltin s name numArgs
  | _ => .err "calling non-closure and non-builtin"

/-! ## The VM dispatch loop (`VM::run`)

One iteration of the `while` body is `vmStep`; the loop itself is `vmRun`
with fuel.  Each arm mutates the state and a local `ip`, and the iteration
ends by writing `ip + 1` into the then-current frame — except `OpCall`,
whose arm advances the stored `ip` itself and `continue`s.  Rust indexing
panics (constants out of range, an empty frame vector) are `.fatal`. -/

def vmStep (s : VMState) : RRes VMState :=
  match currentFrame s with
  | none => .fatal "index out of bounds"
  | some fr =>
    let ip := fr.ip
    let ins := fr.instructions
    match Opcode.fromByte (ins.getD ip 0) with
    | none => .err ("Invalid opcode: " ++ toString (ins.getD ip 0))
    | some op =>
      match op with
      | .opConstant =>
        let constIndex := readU16 (ins.drop (ip + 1))
        match s.constants.get? constIndex with
        | none => .fatal "index out of bounds"
        | some constant =>
          match push s constant with
          | .ok s' => .ok (setFrameIp s' (ip + 2 + 1))
          | e => e
      | .opPop =>
        match pop s with
        | .ok (_, s') => .ok (setFrameIp s' (ip + 1))
        | .err m => .err m
        | .fatal m => .fatal m
        | .timeout => .timeout
      | .opAdd =>
        match execBinaryOp s op with
        | .ok s' => .ok (setFrameIp s' (ip + 1))
        | e => e
      | .opSub =>
        match execBinaryOp s op with
        | .ok s' => .ok (setFrameIp s' (ip + 1))
        | e => e
      | .opMul =>
        match execBinaryOp s op with
        | .ok s' => .ok (setFrameIp s' (ip + 1))
        | e => e
      | .opDiv =>
        match execBinaryOp s op with
        | .ok s' => .ok (setFrameIp s' (ip + 1))
        | e => e
      | .opTrue =>
        match push s (.boolean true) with
        | .ok s' => .ok (setFrameIp s' (ip + 1))
        | e => e
      | .opFalse =>
        match push s (.boolean false) with
        | .ok s' => .ok (setFrameIp s' (ip + 1))
        | e => e
      | .opEqual =>
        match execComparison s op with
        | .ok s' => .ok (setFrameIp s' (ip + 1))
        | e => e
      | .opNotEqual =>
        match execComparison s op with
        | .ok s' => .ok (setFrameIp s' (ip + 1))
        | e => e
      | .opGreaterThan =>
        match execComparison s op with
        | .ok s' => .ok (setFrameIp s' (ip + 1))
        | e => e
      | .opBang =>
        match execBangOp s with
        | .ok s' => .ok (setFrameIp s' (ip + 1))
        | e => e
      | .opMinus =>
        match execMinusOp s with
        | .ok s' => .ok (setFrameIp s' (ip + 1))
        | e => e
      | .opJump =>
        let pos := readU16 (ins.drop (ip + 1))
        .ok (setFrameIp s (pos - 1 + 1))
      | .opJumpNotTruthy =>
        let pos := readU16 (ins.drop (ip + 1))
        match pop s with
        | .ok (condition, s') =>
          if !condition.isTruthy then .ok (setFrameIp s' (pos - 1 + 1))
          else .ok (setFrameIp s' (ip + 2 + 1))
        | .err m => .err m
        | .fatal m => .fatal m
        | .timeout => .timeout
      | .opNull =>
        match push s .null with
        | .ok s' => .ok (setFrameIp s' (ip + 1))
        | e => e
      | .opSetGlobal =>
        let globalIndex := readU16 (ins.drop (ip + 1))
        match pop s with
        | .ok (v, s') =>
          let s'' := { s' with globals := s'.globals.set globalIndex v }
          let s''' := { s'' with stack := s''.stack.set s''.sp Obj.null }
          .ok (setFrameIp s''' (ip + 2 + 1))
        | .err m => .err m
        | .fatal m => .fatal m
        | .timeout => .timeout
      | .opGetGlobal =>
        let globalIndex := readU16 (ins.drop (ip + 1))
        match push s (s.globals.getD globalIndex Obj.null) with
        | .ok s' => .ok (setFrameIp s' (ip + 2 + 1))
        | e => e
      | .opArray =>
        let numElements := readU16 (ins.drop (ip + 1))
        let array := buildArray s (s.sp - numElements) s.sp
        match push { s with sp := s.sp - numElements } array with
        | .ok s' => .ok (setFrameIp s' (ip + 2 + 1))
        | e => e
      | .opHash =>
        let numElements := readU16 (ins.drop (ip + 1))
        match buildHash s (s.sp - numElements) s.sp with
        | .ok hash =>
          match push { s with sp := s.sp - numElements } hash with
          | .ok s' => .ok (setFrameIp s' (ip + 2 + 1))
          | e => e
        | .err m => .err m
        | .fatal m => .fatal m
        | .timeout => .timeout
      | .opIndex =>
        match pop s with
        | .ok (index, s1) =>
          match pop s1 with
          | .ok (left, s2) =>
            match execIndexOp s2 left index with
            | .ok s' => .ok (setFrameIp s' (ip + 1))
            | e => e
          | .err m => .err m
          | .fatal m => .fatal m
          | .timeout => .timeout
        | .err m => .err m
        | .fatal m => .fatal m
        | .timeout => .timeout
      | .opSliceIndex =>
        match pop s with
        | .ok (stop, s1) =>
          match pop s1 with
          | .ok (start, s2) =>
            match pop s2 with
            | .ok (left, s3) =>
              match execSliceIndexOp s3 left start stop with
              | .ok s' => .ok (setFrameIp s' (ip + 1))
              | e => e
            | .err m => .err m
            | .fatal m => .fatal m
            | .timeout => .timeout
          | .err m => .err m
          | .fatal m => .fatal m
          | .timeout => .timeout
        | .err m => .err m
        | .fatal m => .fatal m
        | .timeout => .timeout
      | .opCall =>
        let numArgs := ins.getD (ip + 1) 0
        let s1 := setFrameIp s (fr.ip + 1)
        execCall s1 numArgs
      | .opReturnValue =>
        match pop s with
        | .ok (returnValue, s1) =>
          match popFrame s1 with
          | .ok (frame, s2) =>
            match currentFrame s2 with
            | none => .fatal "index out of bounds"
            | some caller =>
              let s3 := { s2 with sp := frame.basePointer - 1 }
              match push s3 returnValue with
              | .ok s' => .ok (setFrameIp s' (caller.ip + 1))
              | e => e
          | .err m => .err m
          | .fatal m => .fatal m
          | .timeout => .timeout
        | .err m => .err m
        | .fatal m => .fatal m
        | .timeout => .timeout
      | .opReturn =>
        match popFrame s with
        | .ok (frame, s2) =>
          match currentFrame s2 with
          | none => .fatal "index out of bounds"
          | some caller =>
            let s3 := { s2 with sp := frame.basePointer - 1 }
            match push s3 .null with
            | .ok s' => .ok (setFrameIp s' (caller.ip + 1))
            | e => e
        | .err m => .err m
        | .fatal m => .fatal m
        | .timeout => .timeout
      | .opSetLocal =>
        let localIndex := ins.getD (ip + 1) 0
        match pop s with
        | .ok (v, s') =>
          let s'' := { s' with stack := s'.stack.set (fr.basePointer + localIndex) v }
          let s''' := { s'' with stack := s''.stack.set s''.sp Obj.null }
          .ok (setFrameIp s''' (ip + 1 + 1))
        | .err m => .err m
        | .fatal m => .fatal m
        | .timeout => .timeout
      | .opGetLocal =>
        let localIndex := ins.getD (ip + 1) 0
        match push s (s.stack.getD (fr.basePointer + localIndex) Obj.null) with
        | .ok s' => .ok (setFrameIp s' (ip + 1 + 1))
        | e => e

/-- `VM::run`: iterate `vmStep` while the current frame's `ip` is within
its instruction bounds.  `fuel` bounds the number of iterations. -/
def vmRun : Nat → VMState → RRes VMState
  | 0, _ => .timeout
  | fuel + 1, s =>
    match currentFrame s with
    | none => .fatal "index out of bounds"
    | some fr =>
      if fr.ip < fr.instructions.length then
        match vmStep s with
        | .ok s' => vmRun fuel s'
        | .err m => .err m
        | .fatal m => .fatal m
        | .timeout => .timeout
      else .ok s

/-! ## Compiler (src/compiler/mod.rs, the snapshot's version)

The snapshot's compiler predates closure support: `Expression::Function`
ignores its parameters and self-name and emits the compiled function as a
plain `OpConstant`, `Expression::Call` ignores its arguments and emits
`OpCall` with no operand (the operand byte stays `0`), hash pairs are
compiled in source order, and identifiers resolve only to
`OpGetGlobal`/`OpGetLocal`.  Note the source constructs
`CompiledFunction { instructions, num_locals }` with no `num_parameters`
field (it does not type check against src/object/mod.rs); the embedding
fills that field with `0`, and no theorem depends on the choice.

The `scopes` vector is kept top-first (the current scope is the head);
`scope_index` always equals the vector's length minus one and is omitted.
All compile functions take fuel and spend one unit per recursive call; the
entry point `compile` supplies `sizeOf program + 1`, which bounds the
depth of any call path. -/

def Token.display : Token → String
  | .illegal => "ILLEGAL"
  | .eof => "EOF"
  | .ident value => value
  | .int value => value
  | .string value => value
  | .assign => "="
  | .plus => "+"
  | .minus => "-"
  | .bang => "!"
  | .asterisk => "*"
  | .slash => "/"
  | .eq => "=="
  | .notEq => "!="
  | .lt => "<"
  | .gt => ">"
  | .comma => ","
  | .semicolon => ";"
  | .colon => ":"
  | .lparen => "("
  | .rparen => ")"
  | .lbrace => "\x7b"
  | .rbrace => "\x7d"
  | .lbracket => "["
  | .rbracket => "]"
  | .function => "fn"
  | .letT => "let"
  | .trueT => "true"
  | .falseT => "false"
  | .ifT => "if"
  | .elseT => "else"
  | .returnT => "return"

structure EmittedInstruction where
  opcode : Opcode
  position : Nat
  deriving Repr, DecidableEq

structure CompilationScope where
  instructions : List Nat
  lastInstruction : Option EmittedInstruction
  previousInstruction : Option EmittedInstruction
  deriving Repr, DecidableEq

def emptyScope : CompilationScope :=
  { instructions := [], lastInstruction := none, previousInstruction := none }

structure CompilerSt where
  constants : List Obj
  symtab : SymChain
  scopes : List CompilationScope

/-- `Compiler::new`. -/
def newCompiler : CompilerSt :=
  { constants := [], symtab := [emptyTable], scopes := [emptyScope] }

def currentScope (st : CompilerSt) : CompilationScope := st.scopes.headD emptyScope

def setCurrentScope (st : CompilerSt) (sc : CompilationScope) : CompilerSt :=
  { st with scopes := sc :: st.scopes.tail }

def currentInstructions (st : CompilerSt) : List Nat := (currentScope st).instructions

/-- `Compiler::add_constant`. -/
def addConstant (st : CompilerSt) (object : Obj) : Nat × CompilerSt :=
  (st.constants.length, { st with constants := st.constants ++ [object] })

/-- `Compiler::emit` (= `add_instruction` + `set_last_instruction`). -/
def emit (st : CompilerSt) (opcode : Opcode) (operands : List Nat) : Nat × CompilerSt :=
  let instruction := make opcode operands
  let sc := currentScope st
  let position := sc.instructions.length
  (position, setCurrentScope st
    { instructions := sc.instructions ++ instruction
      previousInstruction := sc.lastInstruction
      lastInstruction := some { opcode := opcode, position := position } })

/-- `Compiler::last_instruction_is`. -/
def lastInstructionIs (st : CompilerSt) (opcode : Opcode) : Bool :=
  match (currentScope st).lastInstruction with
  | some instruction => instruction.opcode = opcode
  | none => false

/-- `Compiler::remove_last_pop`: truncate to the last instruction's
position and restore the previous instruction. -/
def removeLastPop (st : CompilerSt) : CompilerSt :=
  let sc := currentScope st
  match sc.lastInstruction with
  | some instruction =>
    setCurrentScope st
      { sc with instructions := sc.instructions.take instruction.position
                lastInstruction := sc.previousInstruction }
  | none => st

/-- Overwrite bytes of `l` starting at `pos` with `new` (the loop of
`Compiler::replace_instruction`). -/
def overwriteAt (l : List Nat) (pos : Nat) : List Nat → List Nat
  | [] => l
  | b :: bs => overwriteAt (l.set pos b) (pos + 1) bs

/-- `Compiler::replace_instruction`. -/
def replaceInstruction (st : CompilerSt) (position : Nat) (newInstruction : List Nat) :
    CompilerSt :=
  let sc := currentScope st
  setCurrentScope st { sc with instructions := overwriteAt sc.instructions position newInstruction }

/-- `Compiler::replace_last_pop_with_return`. -/
def replaceLastPopWithReturn (st : CompilerSt) : RRes CompilerSt :=
  match (currentScope st).lastInstruction with
  | none => .err "no last instruction to replace"
  | some instruction =>
    let st1 := replaceInstruction st instruction.position (make .opReturnValue [])
    let sc := currentScope st1
    let newLast : EmittedInstruction := { opcode := .opReturnValue, position := instruction.position }
    .ok (setCurrentScope st1 { sc with lastInstruction := some newLast })

/-- `Compiler::change_operand`: re-encode the instruction at `position`
with a new operand (`unwrap` of an undeclared opcode byte is a panic). -/
def changeOperand (st : CompilerSt) (position : Nat) (operand : Nat) : RRes CompilerSt :=
  match Opcode.fromByte ((currentInstructions st).getD position 0) with
  | none => .fatal "called Result::unwrap on an Err value"
  | some op => .ok (replaceInstruction st position (make op [operand]))

/-- `Compiler::enter_scope`. -/
def enterScope (st : CompilerSt) : CompilerSt :=
  { st with scopes := emptyScope :: st.scopes, symtab := emptyTable :: st.symtab }

/-- `Compiler::leave_scope`: pop the scope; the symbol table steps to its
outer table (and stays put on the global table, the source's "should never
happen" branch). -/
def leaveScope (st : CompilerSt) : List Nat × CompilerSt :=
  let sc := currentScope st
  let symtab := match st.symtab with
    | _ :: r :: rs => r :: rs
    | chain => chain
  (sc.instructions, { st with scopes := st.scopes.tail, symtab := symtab })

mutual

/-- `Compiler::compile_statement`. -/
def compileStmt : Nat → Statement → CompilerSt → RRes CompilerSt
  | 0, _, _ => .timeout
  | fuel + 1, stmt, st =>
    match stmt with
    | .expr expression =>
      match compileExpr fuel expression st with
      | .ok st1 => .ok (emit st1 .opPop []).2
      | e => e
    | .block statements => compileStmtList fuel statements st
    | .letS name expression =>
      match compileExpr fuel expression st with
      | .ok st1 =>
        let (symbol, chain) := define st1.symtab name
        let st2 := { st1 with symtab := chain }
        match symbol.scope with
        | .global => .ok (emit st2 .opSetGlobal [symbol.index]).2
        | .local => .ok (emit st2 .opSetLocal [symbol.index]).2
        | other => .err ("unknown scope: " ++ other.name)
      | e => e
    | .ret expression =>
      match compileExpr fuel expression st with
      | .ok st1 => .ok (emit st1 .opReturnValue []).2
      | e => e
  termination_by structural fuel => fuel

/-- The statement loops of `compile_program` and `Statement::Block`. -/
def compileStmtList : Nat → List Statement → CompilerSt → RRes CompilerSt
  | 0, _, _ => .timeout
  | _ + 1, [], st => .ok st
  | fuel + 1, stmt :: rest, st =>
    match compileStmt fuel stmt st with
    | .ok st1 => compileStmtList fuel rest st1
    | e => e
  termination_by structural fuel => fuel

/-- `Compiler::compile_expression` (snapshot version: no closures, no call
arguments, no hash sorting). -/
def compileExpr : Nat → Expression → CompilerSt → RRes CompilerSt
  | 0, _, _ => .timeout
  | fuel + 1, expression, st =>
    match expression with
    | .integer value =>
      let (constant, st1) := addConstant st (.integer value)
      .ok (emit st1 .opConstant [constant]).2
    | .boolean value =>
      .ok (if value then (emit st .opTrue []).2 else (emit st .opFalse []).2)
    | .str value =>
      let (constant, st1) := addConstant st (.str value)
      .ok (emit st1 .opConstant [constant]).2
    | .hash pairs =>
      match compilePairs fuel pairs st with
      | .ok st1 => .ok (emit st1 .opHash [pairs.length * 2]).2
      | e => e
    | .array elements =>
      match compileExprList fuel elements st with
      | .ok st1 => .ok (emit st1 .opArray [elements.length]).2
      | e => e
    | .infixE op left right =>
      if op = .lt then
        match compileExpr fuel right st with
        | .ok st1 =>
          match compileExpr fuel left st1 with
          | .ok st2 => .ok (emit st2 .opGreaterThan []).2
          | e => e
        | e => e
      else
        match compileExpr fuel left st with
        | .ok st1 =>
          match compileExpr fuel right st1 with
          | .ok st2 =>
            match op with
            | .plus => .ok (emit st2 .opAdd []).2
            | .minus => .ok (emit st2 .opSub []).2
            | .asterisk => .ok (emit st2 .opMul []).2
            | .slash => .ok (emit st2 .opDiv []).2
            | .eq => .ok (emit st2 .opEqual []).2
            | .notEq => .ok (emit st2 .opNotEqual []).2
            | .gt => .ok (emit st2 .opGreaterThan []).2
            | other => .err ("unknown operator: " ++ other.display)
          | e => e
        | e => e
    | .prefixE op right =>
      match compileExpr fuel right st with
      | .ok st1 =>
        match op with
        | .minus => .ok (emit st1 .opMinus []).2
        | .bang => .ok (emit st1 .opBang []).2
        | other => .err ("unknown operator: " ++ other.display)
      | e => e
    | .ifE condition consequence alternative =>
      match compileExpr fuel condition st with
      | .ok st1 =>
        let (jumpNotTruthyPos, st2) := emit st1 .opJumpNotTruthy [9999]
        match compileStmt fuel consequence st2 with
        | .ok st3 =>
          let st4 := if lastInstructionIs st3 .opPop then removeLastPop st3 else st3
          let (jumpPos, st5) := emit st4 .opJump [9999]
          let afterConsequencePos := (currentInstructions st5).length
          match changeOperand st5 jumpNotTruthyPos afterConsequencePos with
          | .ok st6 =>
            match alternative with
            | some alt =>
              let afterConsequencePos2 := (currentInstructions st6).length
              match changeOperand st6 jumpNotTruthyPos afterConsequencePos2 with
              | .ok st7 =>
                match compileStmt fuel alt st7 with
                | .ok st8 =>
                  let st9 := if lastInstructionIs st8 .opPop then removeLastPop st8 else st8
                  let afterAlternativePos := (currentInstructions st9).length
                  changeOperand st9 jumpPos afterAlternativePos
                | e => e
              | e => e
            | none =>
              let st7 := (emit st6 .opNull []).2
              let afterAlternativePos := (currentInstructions st7).length
              changeOperand st7 jumpPos afterAlternativePos
          | e => e
        | e => e
      | e => e
    | .ident name =>
      let (res, chain) := resolve st.symtab name
      let st1 := { st with symtab := chain }
      match res with
      | none => .err ("undefined variable: " ++ name)
      | some symbol =>
        if symbol.scope = .global then .ok (emit st1 .opGetGlobal [symbol.index]).2
        else .ok (emit st1 .opGetLocal [symbol.index]).2
    | .indexE left idx =>
      match compileExpr fuel left st with
      | .ok st1 =>
        match compileExpr fuel idx st1 with
        | .ok st2 => .ok (emit st2 .opIndex []).2
        | e => e
      | e => e
    | .sliceIndex left start stop =>
      match compileExpr fuel left st with
      | .ok st1 =>
        let afterStart : RRes CompilerSt :=
          match start with
          | some s => compileExpr fuel s st1
          | none => .ok (emit st1 .opNull []).2
        match afterStart with
        | .ok st2 =>
          let afterStop : RRes CompilerSt :=
            match stop with
            | some s => compileExpr fuel s st2
            | none => .ok (emit st2 .opNull []).2
          match afterStop with
          | .ok st3 => .ok (emit st3 .opSliceIndex []).2
          | e => e
        | e => e
      | e => e
    | .function _params body _selfName =>
      let st1 := enterScope st
      match compileStmt fuel body st1 with
      | .ok st2 =>
        let wrapLast : RRes CompilerSt :=
          if lastInstructionIs st2 .opPop then replaceLastPopWithReturn st2 else .ok st2
        match wrapLast with
        | .ok st3 =>
          let st4 := if !lastInstructionIs st3 .opReturnValue then (emit st3 .opReturn []).2
            else st3
          let numLocals := (st4.symtab.headD emptyTable).numDefinitions
          let (instructions, st5) := leaveScope st4
          let compiledFn := Obj.compiledFunction
            { instructions := instructions, numLocals := numLocals, numParameters := 0 }
          let (constant, st6) := addConstant st5 compiledFn
          .ok (emit st6 .opConstant [constant]).2
        | e => e
      | e => e
    | .call fn _args =>
      match compileExpr fuel fn st with
      | .ok st1 => .ok (emit st1 .opCall []).2
      | e => e
  termination_by structural fuel => fuel

/-- The element loop of `Expression::Array`. -/
def compileExprList : Nat → List Expression → CompilerSt → RRes CompilerSt
  | 0, _, _ => .timeout
  | _ + 1, [], st => .ok st
  | fuel + 1, e :: rest, st =>
    match compileExpr fuel e st with
    | .ok st1 => compileExprList fuel rest st1
    | e => e
  termination_by structural fuel => fuel

/-- The pair loop of `Expression::Hash` (source order, no sorting). -/
def compilePairs : Nat → List (Expression × Expression) → CompilerSt → RRes CompilerSt
  | 0, _, _ => .timeout
  | _ + 1, [], st => .ok st
  | fuel + 1, (key, value) :: rest, st =>
    match compileExpr fuel key st with
    | .ok st1 =>
      match compileExpr fuel value st1 with
      | .ok st2 => compilePairs fuel rest st2
      | e => e
    | e => e
  termination_by structural fuel => fuel

end

/-- `Compiler::bytecode`. -/
def bytecode (st : CompilerSt) : Bytecode :=
  { instructions := currentInstructions st, constants := st.constants }

/-- `Compiler::compile` on a fresh compiler, returning the bytecode.
`fuel` is the embedding's recursion bound: any value larger than the depth
of the program's AST gives the Rust function's behaviour. -/
def compile (fuel : Nat) (p : Program) : RRes Bytecode :=
  match compileStmtList fuel p.statements newCompiler with
  | .ok st => .ok (bytecode st)
  | .err m => .err m
  | .fatal m => .fatal m
  | .timeout => .timeout

/-! ## Evaluator (src/eval/mod.rs)

The tree-walking evaluator.  Environments are `Rc<RefCell<Environment>>`
cells; the embedding keeps them in a heap (`List EnvCell`) threaded through
evaluation, an object's captured environment being its cell's index.  The
evaluator's own object module (src/eval/object.rs) prints the `Function`
variant's type as "FUNCTION_OBJ", hence `evalTypeName`.  Its own builtin
module (src/eval/builtins.rs) registers only `len`, and that `len` handles
only strings.  All functions take fuel, one unit per recursive call. -/

structure EnvCell where
  values : List (String × Obj)
  outer : Option Nat

abbrev Heap : Type := List EnvCell

/-- `Object::type_name` of src/eval/object.rs. -/
def evalTypeName : Obj → String
  | .function _ _ _ => "FUNCTION_OBJ"
  | o => o.typeName

/-- `Environment::get`: search the cell, then its outer chain.  The first
argument bounds the chain walk (outer links always point to older cells,
so any bound past the heap size is exact). -/
def envGet : Nat → Heap → Nat → String → Option Obj
  | 0, _, _, _ => none
  | fuel + 1, heap, idx, name =>
    match heap.get? idx with
    | none => none
    | some cell =>
      match (cell.values.find? (fun p => p.1 = name)).map (fun p => p.2) with
      | some value => some value
      | none =>
        match cell.outer with
        | some outer => envGet fuel heap outer name
        | none => none

/-- `Environment::set` on the cell at `idx`. -/
def envSet (heap : Heap) (idx : Nat) (name : String) (value : Obj) : Heap :=
  match heap.get? idx with
  | none => heap
  | some cell =>
    let values :=
      if cell.values.any (fun p => p.1 = name) then
        cell.values.map (fun p => if p.1 = name then (name, value) else p)
      else cell.values ++ [(name, value)]
    heap.set idx { cell with values := values }

/-- `len` of src/eval/builtins.rs (strings only). -/
def evalBuiltinLen (args : List Obj) : RRes Obj :=
  if args.length ≠ 1 then
    .err ("wrong number of arguments. got=" ++ toString args.length ++ ", want=1")
  else
    match args.getD 0 Obj.null with
    | .str value => .ok (.integer (strByteLen value))
    | other => .err ("argument to \x60len\x60 not supported, got " ++ evalTypeName other)

/-- `get_builtin` of src/eval/builtins.rs. -/
def evalGetBuiltin (name : String) : Option (List Obj → RRes Obj) :=
  if name = "len" then some evalBuiltinLen else none

/-- `Evaluator::eval_integer_infix_expression`. -/
def evalIntegerInfix (op : Token) (left right : Int) : RRes Obj :=
  match op with
  | .plus => .ok (.integer (wrap64 (left + right)))
  | .minus => .ok (.integer (wrap64 (left - right)))
  | .slash =>
    match rustI64Div left right with
    | .ok v => .ok (.integer v)
    | .err m => .err m
    | .fatal m => .fatal m
    | .timeout => .timeout
  | .asterisk => .ok (.integer (wrap64 (left * right)))
  | .lt => .ok (.boolean (left < right))
  | .gt => .ok (.boolean (right < left))
  | .eq => .ok (.boolean (left = right))
  | .notEq => .ok (.boolean (left ≠ right))
  | other => .err ("unknown operator: INTEGER " ++ other.display ++ " INTEGER")

/-- `Evaluator::eval_string_infix_expression`. -/
def evalStringInfix (op : Token) (left right : List Char) : RRes Obj :=
  match op with
  | .plus => .ok (.str (left ++ right))
  | .eq => .ok (.boolean (left = right))
  | .notEq => .ok (.boolean (left ≠ right))
  | other => .err ("unknown operator: STRING " ++ other.display ++ " STRING")

/-- The array arm of `Evaluator::eval_slice_index_expression`. -/
def evalArraySlice (elements : List Obj) (start stop : Option Obj) : RRes Obj :=
  let len : Int := (elements.length : Int)
  let startR : RRes Int :=
    match start with
    | some (.integer v) => .ok (if v < 0 then len + v else if v > len then len else v)
    | some _ => .err "slice start must be an integer"
    | none => .ok 0
  match startR with
  | .ok start' =>
    let stopR : RRes Int :=
      match stop with
      | some (.integer v) => .ok (if v < 0 then len + v else if v > len then len else v)
      | some _ => .err "slice stop must be an integer"
      | none => .ok len
    match stopR with
    | .ok stop' =>
      match rustListGet elements (castUsize start') (castUsize stop') with
      | some slice => .ok (.array slice)
      | none => .ok (.array [])
    | .err m => .err m
    | .fatal m => .fatal m
    | .timeout => .timeout
  | .err m => .err m
  | .fatal m => .fatal m
  | .timeout => .timeout

/-- The string arm of `Evaluator::eval_slice_index_expression`. -/
def evalStringSlice (string : List Char) (start stop : Option Obj) : RRes Obj :=
  let len : Int := (strByteLen string : Int)
  let startR : RRes Int :=
    match start with
    | some (.integer v) => .ok (if v < 0 then len + v else if v > len then len else v)
    | some _ => .err "slice start must be an integer"
    | none => .ok 0
  match startR with
  | .ok start' =>
    let stopR : RRes Int :=
      match stop with
      | some (.integer v) => .ok (if v < 0 then len + v else if v > len then len else v)
      | some _ => .err "slice stop must be an integer"
      | none => .ok len
    match stopR with
    | .ok stop' =>
      match rustStrGet string (castUsize start') (castUsize stop') with
      | some slice => .ok (.str slice)
      | none => .ok (.str [])
    | .err m => .err m
    | .fatal m => .fatal m
    | .timeout => .timeout
  | .err m => .err m
  | .fatal m => .fatal m
  | .timeout => .timeout

/-- `Evaluator::eval_index_expression` (after both operands are values). -/
def evalIndexValues (left index : Obj) : RRes Obj :=
  match left, index with
  | .array elements, .integer idx =>
    let idx : Int := if idx < 0 then (elements.length : Int) + idx else idx
    match elements.get? (castUsize idx) with
    | some element => .ok element
    | none => .ok .null
  | .str string, .integer idx =>
    let idx : Int := if idx < 0 then (strByteLen string : Int) + idx else idx
    match string.get? (castUsize idx) with
    | some ch => .ok (.str [ch])
    | none => .ok .null
  | .hash pairs, index =>
    match index.toHashKey with
    | none => .err ("unusable as hash key: " ++ evalTypeName index)
    | some key =>
      match hashGet pairs key with
      | some value => .ok value
      | none => .ok .null
  | left, index =>
    .err ("index operator not supported: " ++ evalTypeName left ++ "[" ++
      evalTypeName index ++ "]")

/-- Bind parameters to arguments in the cell at `idx`
(`params.iter().zip(args)` + `env.set`). -/
def bindParams (heap : Heap) (idx : Nat) : List (String × Obj) → Heap
  | [] => heap
  | (param, arg) :: rest => bindParams (envSet heap idx param arg) idx rest

mutual

/-- `Evaluator::eval_statement`. -/
def evalStmt : Nat → Heap → Nat → Statement → RRes (Obj × Heap)
  | 0, _, _, _ => .timeout
  | fuel + 1, heap, env, stmt =>
    match stmt with
    | .expr expression => evalExpr fuel heap env expression
    | .block block => evalBlockSeq fuel heap env block .null
    | .ret expression =>
      match evalExpr fuel heap env expression with
      | .ok (value, heap1) => .ok (.returnValue value, heap1)
      | e => e
    | .letS name expression =>
      match evalExpr fuel heap env expression with
      | .ok (value, heap1) => .ok (.null, envSet heap1 env name value)
      | e => e
  termination_by structural fuel => fuel

/-- The statement loop of `Evaluator::eval_program`: a `ReturnValue` is
unwrapped and ends the program; `result` starts as Null. -/
def evalProgramSeq : Nat → Heap → Nat → List Statement → Obj → RRes (Obj × Heap)
  | 0, _, _, _, _ => .timeout
  | _ + 1, heap, _, [], result => .ok (result, heap)
  | fuel + 1, heap, env, stmt :: rest, _ =>
    match evalStmt fuel heap env stmt with
    | .ok (.returnValue value, heap1) => .ok (value, heap1)
    | .ok (result, heap1) => evalProgramSeq fuel heap1 env rest result
    | e => e
  termination_by structural fuel => fuel

/-- The statement loop of `Evaluator::eval_block_statement`: a
`ReturnValue` ends the block and is passed through unopened. -/
def evalBlockSeq : Nat → Heap → Nat → List Statement → Obj → RRes (Obj × Heap)
  | 0, _, _, _, _ => .timeout
  | _ + 1, heap, _, [], result => .ok (result, heap)
  | fuel + 1, heap, env, stmt :: rest, _ =>
    match evalStmt fuel heap env stmt with
    | .ok (.returnValue value, heap1) => .ok (.returnValue value, heap1)
    | .ok (result, heap1) => evalBlockSeq fuel heap1 env rest result
    | e => e
  termination_by structural fuel => fuel

/-- `Evaluator::eval_expression`. -/
def evalExpr : Nat → Heap → Nat → Expression → RRes (Obj × Heap)
  | 0, _, _, _ => .timeout
  | fuel + 1, heap, env, expression =>
    match expression with
    | .integer value => .ok (.integer value, heap)
    | .boolean value => .ok (.boolean value, heap)
    | .str value => .ok (.str value, heap)
    | .array elements =>
      match evalExprList fuel heap env elements with
      | .ok (values, heap1) => .ok (.array values, heap1)
      | .err m => .err m
      | .fatal m => .fatal m
      | .timeout => .timeout
    | .hash pairs =>
      match evalHashPairs fuel heap env pairs [] with
      | .ok (values, heap1) => .ok (.hash values, heap1)
      | .err m => .err m
      | .fatal m => .fatal m
      | .timeout => .timeout
    | .prefixE op right =>
      match evalExpr fuel heap env right with
      | .ok (value, heap1) =>
        match op with
        | .bang => .ok (.boolean (!value.isTruthy), heap1)
        | .minus =>
          match value with
          | .integer v => .ok (.integer (wrap64 (-v)), heap1)
          | other => .err ("unknown operator: " ++ Token.display .minus ++ evalTypeName other)
        | other => .err ("unknown operator: " ++ other.display ++ evalTypeName value)
      | e => e
    | .infixE op left right =>
      match evalExpr fuel heap env left with
      | .ok (lv, heap1) =>
        match evalExpr fuel heap1 env right with
        | .ok (rv, heap2) =>
          match lv, rv with
          | .integer l, .integer r =>
            match evalIntegerInfix op l r with
            | .ok v => .ok (v, heap2)
            | .err m => .err m
            | .fatal m => .fatal m
            | .timeout => .timeout
          | .str l, .str r =>
            match evalStringInfix op l r with
            | .ok v => .ok (v, heap2)
            | .err m => .err m
            | .fatal m => .fatal m
            | .timeout => .timeout
          | .boolean l, .boolean r =>
            match op with
            | .eq => .ok (.boolean (l = r), heap2)
            | .notEq => .ok (.boolean (l ≠ r), heap2)
            | other =>
              .err ("unknown operator: " ++ evalTypeName (.boolean l) ++ " " ++
                other.display ++ " " ++ evalTypeName (.boolean r))
          | l, r =>
            if evalTypeName l ≠ evalTypeName r then
              .err ("type mismatch: " ++ evalTypeName l ++ " " ++ op.display ++ " " ++
                evalTypeName r)
            else
              .err ("unknown operator: " ++ evalTypeName l ++ " " ++ op.display ++ " " ++
                evalTypeName r)
        | e => e
      | e => e
    | .ifE condition consequence alternative =>
      match evalExpr fuel heap env condition with
      | .ok (cond, heap1) =>
        if cond.isTruthy then evalStmt fuel heap1 env consequence
        else
          match alternative with
          | some alt => evalStmt fuel heap1 env alt
          | none => .ok (.null, heap1)
      | e => e
    | .ident name =>
      match envGet (heap.length + 1) heap env name with
      | some value => .ok (value, heap)
      | none =>
        match evalGetBuiltin name with
        | some _ => .ok (.builtInFunction name, heap)
        | none => .err ("identifier not found: " ++ name)
    | .function params body _selfName => .ok (.function params body env, heap)
    | .call fn args =>
      match evalExpr fuel heap env fn with
      | .ok (fv, heap1) =>
        match evalExprList fuel heap1 env args with
        | .ok (argVals, heap2) =>
          match fv with
          | .function params body fenv =>
            let newIdx := heap2.length
            let heap3 := heap2 ++ [{ values := [], outer := some fenv }]
            let heap4 := bindParams heap3 newIdx (params.zip argVals)
            match evalStmt fuel heap4 newIdx body with
            | .ok (.returnValue value, heap5) => .ok (value, heap5)
            | .ok (value, heap5) => .ok (value, heap5)
            | e => e
          | .builtInFunction name =>
            match evalGetBuiltin name with
            | none => .fatal "builtin function pointer not registered"
            | some builtin =>
              match builtin argVals with
              | .ok v => .ok (v, heap2)
              | .err m => .err m
              | .fatal m => .fatal m
              | .timeout => .timeout
          | other => .err ("not a function: " ++ evalTypeName other)
        | .err m => .err m
        | .fatal m => .fatal m
        | .timeout => .timeout
      | e => e
    | .indexE left idx =>
      match evalExpr fuel heap env left with
      | .ok (lv, heap1) =>
        match evalExpr fuel heap1 env idx with
        | .ok (iv, heap2) =>
          match evalIndexValues lv iv with
          | .ok v => .ok (v, heap2)
          | .err m => .err m
          | .fatal m => .fatal m
          | .timeout => .timeout
        | e => e
      | e => e
    | .sliceIndex left start stop =>
      match evalExpr fuel heap env left with
      | .ok (lv, heap1) =>
        let startR : RRes (Option Obj × Heap) :=
          match start with
          | some s =>
            match evalExpr fuel heap1 env s with
            | .ok (v, h) => .ok (some v, h)
            | .err m => .err m
            | .fatal m => .fatal m
            | .timeout => .timeout
          | none => .ok (none, heap1)
        match startR with
        | .ok (sv, heap2) =>
          let stopR : RRes (Option Obj × Heap) :=
            match stop with
            | some s =>
              match evalExpr fuel heap2 env s with
              | .ok (v, h) => .ok (some v, h)
              | .err m => .err m
              | .fatal m => .fatal m
              | .timeout => .timeout
            | none => .ok (none, heap2)
          match stopR with
          | .ok (tv, heap3) =>
            match lv with
            | .array elements =>
              match evalArraySlice elements sv tv with
              | .ok v => .ok (v, heap3)
              | .err m => .err m
              | .fatal m => .fatal m
              | .timeout => .timeout
            | .str string =>
              match evalStringSlice string sv tv with
              | .ok v => .ok (v, heap3)
              | .err m => .err m
              | .fatal m => .fatal m
              | .timeout => .timeout
            | other => .err ("slice operator not supported: " ++ evalTypeName other)
          | .err m => .err m
          | .fatal m => .fatal m
          | .timeout => .timeout
        | .err m => .err m
        | .fatal m => .fatal m
        | .timeout => .timeout
      | e => e
  termination_by structural fuel => fuel

/-- The argument/element loop (`map` + `collect::<Result<..>>`). -/
def evalExprList : Nat → Heap → Nat → List Expression → RRes (List Obj × Heap)
  | 0, _, _, _ => .timeout
  | _ + 1, heap, _, [] => .ok ([], heap)
  | fuel + 1, heap, env, e :: rest =>
    match evalExpr fuel heap env e with
    | .ok (v, heap1) =>
      match evalExprList fuel heap1 env rest with
      | .ok (vs, heap2) => .ok (v :: vs, heap2)
      | .err m => .err m
      | .fatal m => .fatal m
      | .timeout => .timeout
    | .err m => .err m
    | .fatal m => .fatal m
    | .timeout => .timeout
  termination_by structural fuel => fuel

/-- The pair loop of `Evaluator::eval_hash_literal_expression`. -/
def evalHashPairs : Nat → Heap → Nat → List (Expression × Expression) →
    List (HashKey × Obj) → RRes (List (HashKey × Obj) × Heap)
  | 0, _, _, _, _ => .timeout
  | _ + 1, heap, _, [], pairs => .ok (pairs, heap)
  | fuel + 1, heap, env, (key, value) :: rest, pairs =>
    match evalExpr fuel heap env key with
    | .ok (kv, heap1) =>
      match evalExpr fuel heap1 env value with
      | .ok (vv, heap2) =>
        match kv.toHashKey with
        | none => .err ("unusable as hash key: " ++ evalTypeName kv)
        | some k => evalHashPairs fuel heap2 env rest (hashInsert pairs k vv)
      | .err m => .err m
      | .fatal m => .fatal m
      | .timeout => .timeout
    | .err m => .err m
    | .fatal m => .fatal m
    | .timeout => .timeout
  termination_by structural fuel => fuel

end

/-- `Evaluator::eval` on a fresh default environment, returning the final
object.  `fuel` is the embedding's recursion bound. -/
def evalProgram (fuel : Nat) (p : Program) : RRes Obj :=
  match evalProgramSeq fuel [{ values := [], outer := none }] 0 p.statements .null with
  | .ok (v, _) => .ok v
  | .err m => .err m
  | .fatal m => .fatal m
  | .timeout => .timeout

/-! ## Concrete fixtures used by the theorems -/

/-- A fresh VM over empty bytecode, used as a base state for concrete runs. -/
def vmS0 : VMState := VMState.new { instructions := [], constants := [] }

/-- The program `fn() { 24 }()`. -/
def progCallNoArg : Program :=
  ⟨[.expr (.call (.function [] (.block [.expr (.integer 24)]) none) [])]⟩

/-- The program `fn() { 24 }` as an expression statement. -/
def progFnLiteral : Program :=
  ⟨[.expr (.function [] (.block [.expr (.integer 24)]) none)]⟩

/-- The program `fn() { 24 }(25)`. -/
def progCallOneArg : Program :=
  ⟨[.expr (.call (.function [] (.block [.expr (.integer 24)]) none) [.integer 25])]⟩

/-- The program `let oneArg = fn(a) { a }; oneArg(24);` (a compiler test
case of the repository itself, src/compiler/tests.rs `test_function_calls`). -/
def progOneArg : Program :=
  ⟨[.letS "oneArg" (.function ["a"] (.block [.expr (.ident "a")]) none),
    .expr (.call (.ident "oneArg") [.integer 24])]⟩

/-- The global table after `define("a"); define("b")`. -/
def symGlobalAB : SymChain := (define (define [emptyTable] "a").2 "b").2
/-- A first nested scope after `define("c"); define("d")`. -/
def symMiddleCD : SymChain := (define (define (emptyTable :: symGlobalAB) "c").2 "d").2
/-- A second nested scope after `define("e"); define("f")`. -/
def symInnerEF : SymChain := (define (define (emptyTable :: symMiddleCD) "e").2 "f").2
/-- The chain after resolving `"c"` from the inner scope. -/
def symAfterC : SymChain := (resolve symInnerEF "c").2
/-- What the snapshot compiler produces for `fn() { 24 }()`: the compiled
function as a plain constant, then `OpCall` with operand byte `0`. -/
def c1Bytecode : Bytecode :=
  { instructions := [0, 0, 1, 22, 0, 1],
    constants := [.integer 24,
      .compiledFunction { instructions := [0, 0, 0, 23], numLocals := 0, numParameters := 0 }] }
/-- `OpConstant 0; OpSetGlobal 0` over the constant pool `[Integer 5]`. -/
def c9Bytecode : Bytecode :=
  { instructions := make .opConstant [0] ++ make .opSetGlobal [0], constants := [.integer 5] }
/-- The state in which that program's run ends. -/
def c9Final : VMState :=
  match vmRun 10 (VMState.new c9Bytecode) with
  | .ok s => s
  | _ => VMState.new c9Bytecode
/-- UTF-8 encoding of one character (Rust `char::encode_utf8`). -/
def charUtf8Bytes (c : Char) : List Nat :=
  let n := c.toNat
  if n < 0x80 then [n]
  else if n < 0x800 then [0xC0 + n / 64, 0x80 + n % 64]
  else if n < 0x10000 then [0xE0 + n / 4096, 0x80 + n / 64 % 64, 0x80 + n % 64]
  else [0xF0 + n / 262144, 0x80 + n / 4096 % 64, 0x80 + n / 64 % 64, 0x80 + n % 64]
/-- The UTF-8 byte sequence of a string. -/
def strUtf8 (s : List Char) : List Nat := (s.map charUtf8Bytes).flatten
/-- The byte-indexed semantics claim C8 ascribes to `OpIndex` on a string
(a second definition following the claim's words, for comparison with the
source's `execStringIndex`): a negative index has the byte length added,
and the result is the single-byte string at that byte position, Null when
the adjusted index is out of range. -/
def claimedStringIndex (s : List Char) (i : Int) : Obj :=
  let bytes := strUtf8 s
  let adj : Int := if i < 0 then (bytes.length : Int) + i else i
  if 0 ≤ adj ∧ adj < (bytes.length : Int) then .str [Char.ofNat (bytes.getD adj.toNat 0)]
  else .null
/-- The two-character string `"éa"` — 3 bytes, 2 characters. -/
def eaStr : List Char := ['é', 'a']
/-- The clamped slice semantics claim C6 describes (a second definition
following the claim's words, for comparison with the source): Null start →
0, Null stop → len, a negative bound has len added, the resulting bounds
are clamped to `[0, len]`, an empty or inverted range gives an empty
result, and a non-Integer non-Null bound is an error (`none`). -/
def claimedArraySlice (elements : List Obj) (start stop : Obj) : Option (List Obj) :=
  let len : Int := (elements.length : Int)
  let toBound : Obj → Int → Option Int := fun o dflt =>
    match o with
    | .integer v => some v
    | .null => some dflt
    | _ => none
  match toBound start 0, toBound stop len with
  | some a, some b =>
    let clamp : Int → Int := fun x => max 0 (min (if x < 0 then len + x else x) len)
    some (if clamp b ≤ clamp a then []
      else (elements.drop (clamp a).toNat).take (clamp b - clamp a).toNat)
  | _, _ => none
/-- The bound adjustment the source actually performs: add `len` to a
negative bound (with no clamp below zero), clamp a bound above `len` down
to `len`. -/
def amendedSliceBound (len x : Int) : Int :=
  if x < 0 then len + x else if x > len then len else x
/-- Amended array-slice semantics for integer bounds: a bound still
negative after the `+len` adjustment, or an inverted range, gives the
empty array; otherwise the element range. -/
def amendedArraySliceCore (elements : List Obj) (a b : Int) : List Obj :=
  let len : Int := (elements.length : Int)
  let a' := amendedSliceBound len a
  let b' := amendedSliceBound len b
  if a' < 0 ∨ b' < 0 ∨ b' < a' then []
  else (elements.drop a'.toNat).take (b' - a').toNat
/-- Amended array-slice semantics: Null bounds default to `0` / `len`,
non-Integer non-Null bounds are errors (start checked first). -/
def amendedArraySlice (elements : List Obj) (start stop : Obj) : Except String (List Obj) :=
  match start, stop with
  | .integer a, .integer b => .ok (amendedArraySliceCore elements a b)
  | .integer a, .null => .ok (amendedArraySliceCore elements a (elements.length : Int))
  | .null, .integer b => .ok (amendedArraySliceCore elements 0 b)
  | .null, .null => .ok (amendedArraySliceCore elements 0 (elements.length : Int))
  | .integer _, _ => .error "slice stop must be an integer"
  | .null, _ => .error "slice stop must be an integer"
  | _, _ => .error "slice start must be an integer"
/-- Amended string-slice semantics for integer bounds: as the array case
over byte lengths, except the byte-range lookup also fails (yielding the
empty string) when an offset is not on a character boundary. -/
def amendedStringSliceCore (string : List Char) (a b : Int) : List Char :=
  let len : Int := (strByteLen string : Int)
  let a' := amendedSliceBound len a
  let b' := amendedSliceBound len b
  if a' < 0 ∨ b' < 0 then []
  else
    match rustStrGet string a'.toNat b'.toNat with
    | some slice => slice
    | none => []
/-- Amended string-slice semantics with Null defaulting and type errors. -/
def amendedStringSlice (string : List Char) (start stop : Obj) : Except String (List Char) :=
  match start, stop with
  | .integer a, .integer b => .ok (amendedStringSliceCore string a b)
  | .integer a, .null => .ok (amendedStringSliceCore string a (strByteLen string : Int))
  | .null, .integer b => .ok (amendedStringSliceCore string 0 b)
  | .null, .null => .ok (amendedStringSliceCore string 0 (strByteLen string : Int))
  | .integer _, _ => .error "slice stop must be an integer"
  | .null, _ => .error "slice stop must be an integer"
  | _, _ => .error "slice start must be an integer"
/-- The program `{1: 2, 3: 4}` as an expression statement. -/
def hashProgA : Program :=
  ⟨[.expr (.hash [(.integer 1, .integer 2), (.integer 3, .integer 4)])]⟩
/-- The program `{3: 4, 1: 2}` — the same pairs in the other order. -/
def hashProgB : Program :=
  ⟨[.expr (.hash [(.integer 3, .integer 4), (.integer 1, .integer 2)])]⟩
/-- The byte pattern of `n` consecutive `OpConstant` instructions with
constant indices `c, c+1, …, c+n-1`. -/
def opConstantSeq (c n : Nat) : List Nat :=
  ((List.range' c n).map (fun i => [0, i / 256 % 256, i % 256])).flatten
/-- A hash literal of integer pairs, as a one-statement program. -/
def intPairsProg (ps : List (Int × Int)) : Program :=
  ⟨[.expr (.hash (ps.map (fun p => (Expression.integer p.1, Expression.integer p.2))))]⟩
/-- Its constant pool: the keys and values, in source order. -/
def intPairsConstants (ps : List (Int × Int)) : List Obj :=
  (ps.map (fun p => [Obj.integer p.1, Obj.integer p.2])).flatten
/-- The `last_instruction` slot after appending `n` `OpConstant`
instructions (3 bytes each) to the scope `sc`. -/
def pairsLast (sc : CompilationScope) (n : Nat) : Option EmittedInstruction :=
  if n = 0 then sc.lastInstruction
  else some { opcode := .opConstant, position := sc.instructions.length + 3 * (n - 1) }
/-- The `previous_instruction` slot after appending `n` `OpConstant`
instructions to the scope `sc`. -/
def pairsPrev (sc : CompilationScope) (n : Nat) : Option EmittedInstruction :=
  if n = 0 then sc.previousInstruction
  else if n = 1 then sc.lastInstruction
  else some { opcode := .opConstant, position := sc.instructions.length + 3 * (n - 2) }

/-! ## Helper lemmas -/

theorem setFrameIp_stack (s : VMState) (ip : Nat) : (setFrameIp s ip).stack = s.stack := by
  unfold setFrameIp; cases s.frames <;> rfl

theorem setFrameIp_sp (s : VMState) (ip : Nat) : (setFrameIp s ip).sp = s.sp := by
  unfold setFrameIp; cases s.frames <;> rfl

theorem setFrameIp_globals (s : VMState) (ip : Nat) : (setFrameIp s ip).globals = s.globals := by
  unfold setFrameIp; cases s.frames <;> rfl

theorem castUsize_of_nonneg {x : Int} (h0 : 0 ≤ x) (h1 : x < 2 ^ 64) :
    castUsize x = x.toNat := by
  unfold castUsize
  have : x % 2 ^ 64 = x := by omega
  rw [this]

theorem castUsize_neg_ge {x : Int} (h0 : -(2 ^ 63) ≤ x) (h1 : x < 0) :
    2 ^ 63 ≤ castUsize x := by
  unfold castUsize
  have : x % 2 ^ 64 = x + 2 ^ 64 := by omega
  rw [this]
  omega

theorem one_le_charUtf8Size (c : Char) : 1 ≤ charUtf8Size c := by
  unfold charUtf8Size
  split_ifs <;> omega

theorem length_le_strByteLen (s : List Char) : s.length ≤ strByteLen s := by
  induction s with
  | nil => simp [strByteLen]
  | cons c cs ih =>
    have := one_le_charUtf8Size c
    simp only [strByteLen, List.map_cons, List.sum_cons, List.length_cons]
    simp only [strByteLen] at ih
    omega

theorem strByteLen_cons (c : Char) (cs : List Char) :
    strByteLen (c :: cs) = charUtf8Size c + strByteLen cs := by
  simp [strByteLen]

theorem strDropBytes_none {s : List Char} {n : Nat} (h : strByteLen s < n) :
    strDropBytes s n = none := by
  induction s generalizing n with
  | nil =>
    match n, h with
    | n + 1, _ => rfl
  | cons c cs ih =>
    match n, h with
    | n + 1, h =>
      unfold strDropBytes
      split
      · apply ih
        have := strByteLen_cons c cs
        omega
      · rfl

theorem strTakeBytes_none {s : List Char} {n : Nat} (h : strByteLen s < n) :
    strTakeBytes s n = none := by
  induction s generalizing n with
  | nil =>
    match n, h with
    | n + 1, _ => rfl
  | cons c cs ih =>
    match n, h with
    | n + 1, h =>
      unfold strTakeBytes
      split
      · rw [ih]
        · rfl
        · have := strByteLen_cons c cs
          omega
      · rfl

/-- The arity message never collides with the frame-overflow message. -/
theorem arityMsg_ne_frame_overflow (want got : Nat) : arityMsg want got ≠ "frame overflow" := by
  intro h
  have hw : (arityMsg want got).data.head? = some 'w' := rfl
  rw [h] at hw
  exact absurd hw (by decide)

/-! ## Claim C10 — OpDiv is unguarded -/

/-- C10 (counterexample): the claim promises `Integer(l / r)` for every
nonzero divisor, but `OpDiv` on `(i64::MIN, -1)` is a Rust division
overflow panic, not a push (and not a Monkey runtime error either). -/
theorem c10_div_overflow_cex :
    execBinaryIntOp vmS0 .opDiv (-(2 ^ 63)) (-1) = .fatal "attempt to divide with overflow" ∧
    (-1 : Int) ≠ 0 := by
  exact ⟨rfl, by decide⟩

/-- C10 (amended): for operands `Integer(l)`, `Integer(r)` with `r ≠ 0` and
`(l, r) ≠ (i64::MIN, -1)`, `OpDiv` pushes `Integer(l / r)` truncated toward
zero; a zero divisor is a Rust panic, and in particular never surfaces as a
Monkey runtime-error result. -/
theorem c10_div_amended :
    (∀ (s : VMState) (l r : Int), r ≠ 0 → ¬(l = i64Min ∧ r = -1) →
      execBinaryIntOp s .opDiv l r = push s (.integer (Int.tdiv l r))) ∧
    (∀ (s : VMState) (l : Int),
      execBinaryIntOp s .opDiv l 0 = .fatal "attempt to divide by zero" ∧
      ∀ msg, execBinaryIntOp s .opDiv l 0 ≠ .err msg) := by
  constructor
  · intro s l r hr hnot
    simp [execBinaryIntOp, rustI64Div, hr, hnot]
  · intro s l
    refine ⟨by simp [execBinaryIntOp, rustI64Div], ?_⟩
    intro msg h
    simp [execBinaryIntOp, rustI64Div] at h

/-! ## Claim C4 — OpCall on a closure -/

/-- C4: calling a closure raises the exact arity error iff the argument
count differs from `num_parameters`; otherwise (with frame capacity left) a
new frame with `base_pointer = sp - n` is pushed, `sp` becomes
`base_pointer + num_locals`, and local slot `i` of the new frame is the
stack slot `sp - n + i`, i.e. the i-th argument. -/
theorem c4_call_closure_spec :
    ∀ (s : VMState) (cl : Closure) (n : Nat),
      (callClosure s cl n = .err (arityMsg cl.func.numParameters n) ↔
        n ≠ cl.func.numParameters) ∧
      arityMsg 1 0 = "wrong number of arguments: want=1, got=0" ∧
      (n = cl.func.numParameters → s.framesIndex < MAX_FRAMES →
        callClosure s cl n =
          .ok { s with sp := (s.sp - n) + cl.func.numLocals,
                       frames := Frame.new cl (s.sp - n) :: s.frames,
                       framesIndex := s.framesIndex + 1 } ∧
        (Frame.new cl (s.sp - n)).basePointer = s.sp - n ∧
        (∀ i, i < n →
          s.stack.getD ((Frame.new cl (s.sp - n)).basePointer + i) Obj.null =
            s.stack.getD (s.sp - n + i) Obj.null)) := by
  intro s cl n
  refine ⟨⟨?_, ?_⟩, rfl, ?_⟩
  · intro h heq
    rw [callClosure] at h
    rw [if_neg (by simp [heq])] at h
    rw [pushFrame] at h
    by_cases hcap : { s with sp := (Frame.new cl (s.sp - n)).basePointer + cl.func.numLocals :
        VMState }.framesIndex ≥ MAX_FRAMES
    · rw [if_pos hcap] at h
      have := (RRes.err.injEq _ _).mp h
      exact arityMsg_ne_frame_overflow cl.func.numParameters n this.symm
    · rw [if_neg hcap] at h
      exact RRes.noConfusion h
  · intro hne
    rw [callClosure, if_pos hne]
  · intro heq hlt
    refine ⟨?_, rfl, fun i _ => rfl⟩
    rw [callClosure, if_neg (by simp [heq])]
    rw [pushFrame, if_neg (by simp [MAX_FRAMES] at hlt ⊢; omega)]
    subst heq
    rfl

/-! ## Claim C5 — resolve converts outer locals to FREE symbols -/

/-- C5: resolving a name that is absent locally and resolves in an
enclosing table to a non-GLOBAL, non-BUILTIN symbol appends the original
symbol to `free_symbols` and returns a FREE symbol with
`index = free_symbols.length - 1`; in the a,b / c,d / e,f scenario,
resolving `c` then `d` from the inner scope yields FREE symbols of indices
0 and 1 and leaves `free_symbols = [c-as-LOCAL, d-as-LOCAL]`. -/
theorem c5_resolve_free_conversion :
    (∀ (t : TableData) (rest : SymChain) (name : String) (sym : Symbol) (rest' : SymChain),
      storeGet t.store name = none →
      resolve rest name = (some sym, rest') →
      sym.scope ≠ .global → sym.scope ≠ .builtin →
      resolve (t :: rest) name =
        (some { name := sym.name, scope := .free, index := t.freeSymbols.length },
         { t with freeSymbols := t.freeSymbols ++ [sym],
                  store := storeInsert t.store sym.name
                    { name := sym.name, scope := .free, index := t.freeSymbols.length } }
           :: rest')) ∧
    (resolve symInnerEF "c").1 = some { name := "c", scope := .free, index := 0 } ∧
    (resolve symAfterC "d").1 = some { name := "d", scope := .free, index := 1 } ∧
    ((resolve symAfterC "d").2.headD emptyTable).freeSymbols =
      [{ name := "c", scope := .local, index := 0 },
       { name := "d", scope := .local, index := 1 }] := by
  refine ⟨?_, by decide, by decide, by decide⟩
  intro t rest name sym rest' h1 h2 h3 h4
  simp only [resolve, h1, h2]
  rw [if_neg (by simp [h3, h4])]
  simp [defineFree]

/-! ## Claims C1, C2, C3 — the snapshot compiler against the spec -/

/-- C1: on `fn() { 24 }()` — which parses and compiles with no error — the
evaluator yields `Integer(24)` while the VM aborts with the runtime error
`calling non-closure and non-builtin`: the compiled-function constant is
pushed bare, never wrapped in a closure the VM's `exec_call` accepts. -/
theorem c1_vm_eval_divergence :
    evalProgram 20 progCallNoArg = .ok (.integer 24) ∧
    compile 20 progCallNoArg = .ok c1Bytecode ∧
    vmRun 50 (VMState.new c1Bytecode) = .err "calling non-closure and non-builtin" ∧
    (.ok (Obj.integer 24) : RRes Obj) ≠ .err "calling non-closure and non-builtin" := by
  refine ⟨rfl, rfl, rfl, by simp⟩

/-- C2: compiling the function literal `fn() { 24 }` emits exactly
`OpConstant 1; OpPop` — the compiled function is pushed as a bare constant;
no free-symbol loads and no `OpClosure` are emitted (the snapshot's opcode
table does not even declare `OpClosure`). -/
theorem c2_no_closure_emission :
    compile 30 progFnLiteral =
      .ok { instructions := [0, 0, 1, 1],
            constants := [.integer 24,
              .compiledFunction
                { instructions := [0, 0, 0, 23], numLocals := 0, numParameters := 0 }] } ∧
    make .opConstant [1] ++ make .opPop [] = [0, 0, 1, 1] ∧
    make .opReturnValue [] = [23] := by
  exact ⟨rfl, rfl, rfl⟩

/-- C3: the snapshot's `Call` arm ignores the arguments.  The repository's
own compiler test input `let oneArg = fn(a) { a }; oneArg(24);` fails to
compile at all (parameters are never defined, so `a` is undefined), and
`fn() { 24 }(25)` compiles without the argument `25` ever being compiled —
the constant pool has no `25` and `OpCall`'s operand byte is `0`, not the
argument count. -/
theorem c3_call_arguments_ignored :
    compile 30 progOneArg = .err "undefined variable: a" ∧
    compile 30 progCallOneArg = .ok c1Bytecode ∧
    make .opCall [] = [22, 0] ∧
    make .opCall [1] = [22, 1] := by
  exact ⟨rfl, rfl, rfl, rfl⟩

/-! ## Claim C9 — sp discipline and the "last popped" slot -/

/-- C9 (counterexample): after `OpConstant 0; OpSetGlobal 0` the value most
recently popped is `Integer 5` (it landed in `globals[0]`), yet
`stack[sp]` is Null — the `OpSetGlobal` arm overwrites the slot after its
pop, so "stack[sp] still holds the value most recently popped after every
popping instruction" fails. -/
theorem c9_setglobal_overwrite_cex :
    (match vmRun 10 (VMState.new c9Bytecode) with | .ok _ => true | _ => false) = true ∧
    c9Final.globals.getD 0 .null = .integer 5 ∧
    c9Final.sp = 0 ∧
    lastPoppedStackElem c9Final = .null ∧
    Obj.null ≠ Obj.integer 5 := by
  refine ⟨rfl, rfl, rfl, rfl, by simp⟩

/-- C9 (amended): `sp` always indexes the next free slot — a successful
push writes at `sp` and increments it, a failed push returns the
stack-overflow error with the state unchanged, and a pop decrements `sp`
leaving the popped value at `stack[sp]`; however the `OpSetGlobal` handler
(like `OpSetLocal`) then overwrites `stack[sp]` with Null after its pop, so
after those instructions `stack[sp]` is Null, not the popped value. -/
theorem c9_stack_discipline_amended :
    (∀ (s : VMState) (obj : Obj), s.sp < STACK_SIZE →
      pushSt s obj = ({ s with stack := s.stack.set s.sp obj, sp := s.sp + 1 }, none)) ∧
    (∀ (s : VMState) (obj : Obj), STACK_SIZE ≤ s.sp →
      pushSt s obj = (s, some "stack overflow")) ∧
    (∀ (s : VMState), s.sp ≠ 0 →
      pop s = .ok (s.stack.getD (s.sp - 1) Obj.null, { s with sp := s.sp - 1 }) ∧
      lastPoppedStackElem { s with sp := s.sp - 1 } = s.stack.getD (s.sp - 1) Obj.null) ∧
    (∀ (s : VMState) (fr : Frame),
      currentFrame s = some fr →
      Opcode.fromByte (fr.instructions.getD fr.ip 0) = some .opSetGlobal →
      s.sp ≠ 0 → s.sp ≤ s.stack.length →
      ∃ s', vmStep s = .ok s' ∧
        s'.sp = s.sp - 1 ∧
        s'.globals = s.globals.set (readU16 (fr.instructions.drop (fr.ip + 1)))
          (s.stack.getD (s.sp - 1) Obj.null) ∧
        lastPoppedStackElem s' = Obj.null) := by
  refine ⟨?_, ?_, ?_, ?_⟩
  · intro s obj h
    rw [pushSt, if_neg (by omega)]
  · intro s obj h
    rw [pushSt, if_pos (by omega)]
  · intro s h
    refine ⟨by rw [pop, if_neg h], rfl⟩
  · intro s fr h1 h2 h3 h4
    have hs : vmStep s = .ok (setFrameIp
        { s with sp := s.sp - 1,
                 globals := s.globals.set (readU16 (fr.instructions.drop (fr.ip + 1)))
                   (s.stack.getD (s.sp - 1) Obj.null),
                 stack := s.stack.set (s.sp - 1) Obj.null } (fr.ip + 2 + 1)) := by
      rw [vmStep, h1]
      simp only [h2]
      rw [pop, if_neg h3]
    refine ⟨_, hs, by simp [setFrameIp_sp], by simp [setFrameIp_globals], ?_⟩
    rw [lastPoppedStackElem, setFrameIp_stack, setFrameIp_sp]
    have hlt : s.sp - 1 < s.stack.length := by omega
    simp [List.getD_eq_getElem?_getD, List.getElem?_set_self, hlt]

/-! ## Claim C8 — OpIndex on a string -/

/-- C8 (counterexample): indexing `"éa"` with `-1` adjusts by the byte
length (3) to 2, a valid byte position whose byte is `'a'`; the claim
demands the single-byte string `"a"`, but the code looks up character
position 2 of a 2-character string and pushes Null. -/
theorem c8_string_index_cex :
    (∃ s', execStringIndex vmS0 eaStr (-1) = .ok s' ∧ s'.sp = 1 ∧
      s'.stack.getD 0 .null = Obj.null) ∧
    claimedStringIndex eaStr (-1) = .str ['a'] ∧
    Obj.null ≠ .str ['a'] := by
  exact ⟨⟨_, rfl, rfl, rfl⟩, rfl, by simp⟩

/-- C8 (amended): `OpIndex` on a string adjusts a negative index by the
BYTE length but then reads the character at that position
(`chars().nth`): the result is the one-character string there, or Null
when the adjusted position is negative or has no character. -/
theorem c8_string_index_amended :
    ∀ (s : VMState) (cs : List Char) (i : Int),
      i64Min ≤ i → i ≤ i64Max → (strByteLen cs : Int) ≤ i64Max →
      execStringIndex s cs i =
        (if 0 ≤ (if i < 0 then (strByteLen cs : Int) + i else i) then
          match cs.get? (if i < 0 then (strByteLen cs : Int) + i else i).toNat with
          | some c => push s (.str [c])
          | none => push s .null
        else push s .null) := by
  intro s cs i h1 h2 h3
  simp only [i64Min] at h1
  simp only [i64Max] at h2 h3
  rw [execStringIndex]
  by_cases hpos : 0 ≤ (if i < 0 then (strByteLen cs : Int) + i else i)
  · rw [if_pos hpos]
    rw [castUsize_of_nonneg hpos (by split_ifs at hpos ⊢ <;> omega)]
  · rw [if_neg hpos]
    have hbig : cs.length ≤ castUsize (if i < 0 then (strByteLen cs : Int) + i else i) := by
      have hge := castUsize_neg_ge (x := if i < 0 then (strByteLen cs : Int) + i else i)
        (by split_ifs <;> omega) (by omega)
      have hlen := length_le_strByteLen cs
      omega
    rw [List.get?_eq_none.mpr hbig]

/-- C8 (witness): the amended statement at `"ab"[-1]`, which reads the
character `'b'`. -/
theorem c8_string_index_amended_witness :
    execStringIndex vmS0 ['a', 'b'] (-1) = push vmS0 (.str ['b']) :=
  c8_string_index_amended vmS0 ['a', 'b'] (-1) (by decide) (by decide) (by decide)

/-! ## Claim C6 — OpSliceIndex bounds -/

/-- C6 (counterexample): slicing the one-element array `[7]` as `[-2:]`
adjusts the start to `1 + (-2) = -1`; the claim clamps it to 0 and yields
the whole array `[7]`, but the code's `usize` cast wraps the negative
offset and the range lookup fails, yielding the empty array. -/
theorem c6_slice_clamp_cex :
    (∃ s', execArraySliceIndex vmS0 [.integer 7] (.integer (-2)) .null = .ok s' ∧
      s'.sp = 1 ∧ s'.stack.getD 0 .null = Obj.array []) ∧
    claimedArraySlice [.integer 7] (.integer (-2)) .null = some [.integer 7] ∧
    Obj.array [] ≠ Obj.array [.integer 7] := by
  exact ⟨⟨_, rfl, rfl, rfl⟩, rfl, by simp⟩

theorem strDropBytes_byteLen {s t : List Char} {n : Nat} (h : strDropBytes s n = some t) :
    strByteLen t + n = strByteLen s := by
  induction s generalizing n t with
  | nil =>
    match n, h with
    | 0, h =>
      simp only [strDropBytes, Option.some.injEq] at h
      subst h
      rfl
  | cons c cs ih =>
    match n, h with
    | 0, h =>
      simp only [strDropBytes, Option.some.injEq] at h
      subst h
      rfl
    | n + 1, h =>
      rw [strDropBytes] at h
      split at h
      next hle =>
        have := ih h
        have := strByteLen_cons c cs
        omega
      next => exact Option.noConfusion h

/-- A byte range whose stop overruns the string never slices. -/
theorem rustStrGet_none_of_big {s : List Char} {a b : Nat} (h : strByteLen s < b) :
    rustStrGet s a b = none := by
  rw [rustStrGet]
  split
  next hab =>
    cases hdrop : strDropBytes s a with
    | none => rfl
    | some t =>
      have hlen := strDropBytes_byteLen hdrop
      exact strTakeBytes_none (by omega)
  next => rfl

theorem execArraySliceCore_eq (s : VMState) (elements : List Obj) (a b : Int)
    (hlen : (elements.length : Int) ≤ i64Max)
    (ha : i64Min ≤ a ∧ a ≤ i64Max) (hb : i64Min ≤ b ∧ b ≤ i64Max) :
    execArraySliceIndex.execArraySliceCore s elements a b =
      push s (.array (amendedArraySliceCore elements a b)) := by
  simp only [i64Min, i64Max] at hlen ha hb
  simp only [execArraySliceIndex.execArraySliceCore, amendedArraySliceCore, amendedSliceBound]
  set L : Int := (elements.length : Int) with hL
  have hL0 : 0 ≤ L := by simp [hL]
  set A : Int := if a < 0 then L + a else if a > L then L else a with hA
  set B : Int := if b < 0 then L + b else if b > L then L else b with hB
  have hAle : A ≤ L := by rw [hA]; split_ifs <;> omega
  have hAge : -(2 ^ 63) ≤ A := by rw [hA]; split_ifs <;> omega
  have hBle : B ≤ L := by rw [hB]; split_ifs <;> omega
  have hBge : -(2 ^ 63) ≤ B := by rw [hB]; split_ifs <;> omega
  have hLlen : L = (elements.length : Int) := hL
  by_cases hA0 : A < 0
  · have h1 : 2 ^ 63 ≤ castUsize A := castUsize_neg_ge hAge hA0
    have h2 : rustListGet elements (castUsize A) (castUsize B) = none := by
      rw [rustListGet, if_neg]
      omega
    rw [h2, if_pos (Or.inl hA0)]
  · by_cases hB0 : B < 0
    · have h1 : 2 ^ 63 ≤ castUsize B := castUsize_neg_ge hBge hB0
      have h2 : rustListGet elements (castUsize A) (castUsize B) = none := by
        rw [rustListGet, if_neg]
        omega
      rw [h2, if_pos (Or.inr (Or.inl hB0))]
    · have hAu : castUsize A = A.toNat := castUsize_of_nonneg (by omega) (by omega)
      have hBu : castUsize B = B.toNat := castUsize_of_nonneg (by omega) (by omega)
      rw [hAu, hBu]
      by_cases hBA : B < A
      · have h2 : rustListGet elements A.toNat B.toNat = none := by
          rw [rustListGet, if_neg]
          omega
        rw [h2, if_pos (Or.inr (Or.inr hBA))]
      · have h2 : rustListGet elements A.toNat B.toNat =
            some ((elements.drop A.toNat).take (B.toNat - A.toNat)) := by
          rw [rustListGet, if_pos (by omega)]
        rw [h2, if_neg (by omega)]
        have h3 : (B - A).toNat = B.toNat - A.toNat := by omega
        rw [h3]

theorem execStringSliceCore_eq (s : VMState) (string : List Char) (a b : Int)
    (hlen : (strByteLen string : Int) ≤ i64Max)
    (ha : i64Min ≤ a ∧ a ≤ i64Max) (hb : i64Min ≤ b ∧ b ≤ i64Max) :
    execStringSliceIndex.execStringSliceCore s string a b =
      push s (.str (amendedStringSliceCore string a b)) := by
  simp only [i64Min, i64Max] at hlen ha hb
  simp only [execStringSliceIndex.execStringSliceCore, amendedStringSliceCore, amendedSliceBound]
  set L : Int := (strByteLen string : Int) with hL
  have hL0 : 0 ≤ L := by simp [hL]
  set A : Int := if a < 0 then L + a else if a > L then L else a with hA
  set B : Int := if b < 0 then L + b else if b > L then L else b with hB
  have hAle : A ≤ L := by rw [hA]; split_ifs <;> omega
  have hAge : -(2 ^ 63) ≤ A := by rw [hA]; split_ifs <;> omega
  have hBle : B ≤ L := by rw [hB]; split_ifs <;> omega
  have hBge : -(2 ^ 63) ≤ B := by rw [hB]; split_ifs <;> omega
  by_cases hA0 : A < 0
  · have h1 : 2 ^ 63 ≤ castUsize A := castUsize_neg_ge hAge hA0
    have h2 : rustStrGet string (castUsize A) (castUsize B) = none := by
      by_cases hab : castUsize A ≤ castUsize B
      · exact rustStrGet_none_of_big (by omega)
      · rw [rustStrGet, if_neg hab]
    rw [h2, if_pos (Or.inl hA0)]
  · by_cases hB0 : B < 0
    · have h1 : 2 ^ 63 ≤ castUsize B := castUsize_neg_ge hBge hB0
      have h2 : rustStrGet string (castUsize A) (castUsize B) = none :=
        rustStrGet_none_of_big (by omega)
      rw [h2, if_pos (Or.inr hB0)]
    · have hAu : castUsize A = A.toNat := castUsize_of_nonneg (by omega) (by omega)
      have hBu : castUsize B = B.toNat := castUsize_of_nonneg (by omega) (by omega)
      rw [hAu, hBu, if_neg (by omega)]
      cases rustStrGet string A.toNat B.toNat <;> rfl

/-- C6 (amended): on an Array or String, a Null start is 0 and a Null stop
is the length; a negative bound has the length added but is NOT clamped
below zero — if the adjusted bound is still negative the range lookup
fails and the result is empty; bounds above the length are clamped to it;
empty or inverted ranges (and, for strings, offsets off a character
boundary) give an empty result; a non-Integer non-Null bound is a runtime
error, the start checked first. -/
theorem c6_slice_amended :
    (∀ (s : VMState) (elements : List Obj) (start stop : Obj),
      (elements.length : Int) ≤ i64Max →
      (∀ v, start = .integer v → i64Min ≤ v ∧ v ≤ i64Max) →
      (∀ v, stop = .integer v → i64Min ≤ v ∧ v ≤ i64Max) →
      execArraySliceIndex s elements start stop =
        (match amendedArraySlice elements start stop with
         | .ok slice => push s (.array slice)
         | .error msg => .err msg)) ∧
    (∀ (s : VMState) (string : List Char) (start stop : Obj),
      (strByteLen string : Int) ≤ i64Max →
      (∀ v, start = .integer v → i64Min ≤ v ∧ v ≤ i64Max) →
      (∀ v, stop = .integer v → i64Min ≤ v ∧ v ≤ i64Max) →
      execStringSliceIndex s string start stop =
        (match amendedStringSlice string start stop with
         | .ok slice => push s (.str slice)
         | .error msg => .err msg)) := by
  constructor
  · intro s elements start stop hlen hstart hstop
    have hlen0 : i64Min ≤ (elements.length : Int) ∧ (elements.length : Int) ≤ i64Max :=
      ⟨le_trans (by decide : i64Min ≤ 0) (Int.natCast_nonneg _), hlen⟩
    have h00 : i64Min ≤ (0 : Int) ∧ (0 : Int) ≤ i64Max := by decide
    cases start with
    | integer a =>
      cases stop with
      | integer b => exact execArraySliceCore_eq s elements a b hlen (hstart a rfl) (hstop b rfl)
      | null => exact execArraySliceCore_eq s elements a _ hlen (hstart a rfl) hlen0
      | _ => rfl
    | null =>
      cases stop with
      | integer b => exact execArraySliceCore_eq s elements 0 b hlen h00 (hstop b rfl)
      | null => exact execArraySliceCore_eq s elements 0 _ hlen h00 hlen0
      | _ => rfl
    | _ => rfl
  · intro s string start stop hlen hstart hstop
    have hlen0 : i64Min ≤ (strByteLen string : Int) ∧ (strByteLen string : Int) ≤ i64Max :=
      ⟨le_trans (by decide : i64Min ≤ 0) (Int.natCast_nonneg _), hlen⟩
    have h00 : i64Min ≤ (0 : Int) ∧ (0 : Int) ≤ i64Max := by decide
    cases start with
    | integer a =>
      cases stop with
      | integer b => exact execStringSliceCore_eq s string a b hlen (hstart a rfl) (hstop b rfl)
      | null => exact execStringSliceCore_eq s string a _ hlen (hstart a rfl) hlen0
      | _ => rfl
    | null =>
      cases stop with
      | integer b => exact execStringSliceCore_eq s string 0 b hlen h00 (hstop b rfl)
      | null => exact execStringSliceCore_eq s string 0 _ hlen h00 hlen0
      | _ => rfl
    | _ => rfl

/-! ## Claim C7 — hash literal compilation order -/

/-- C7 (counterexample): the two hash literals hold the same pairs in
different source order, yet they compile to different bytecode — the
constant pools keep the source order (`1,2,3,4` versus `3,4,1,2`); no
sorting by the keys' string form happens. -/
theorem c7_hash_order_cex :
    compile 30 hashProgA =
      .ok { instructions := [0, 0, 0, 0, 0, 1, 0, 0, 2, 0, 0, 3, 19, 0, 4, 1],
            constants := [.integer 1, .integer 2, .integer 3, .integer 4] } ∧
    compile 30 hashProgB =
      .ok { instructions := [0, 0, 0, 0, 0, 1, 0, 0, 2, 0, 0, 3, 19, 0, 4, 1],
            constants := [.integer 3, .integer 4, .integer 1, .integer 2] } ∧
    ([Obj.integer 1, .integer 2, .integer 3, .integer 4] ≠
      [Obj.integer 3, .integer 4, .integer 1, .integer 2]) := by
  exact ⟨rfl, rfl, by simp⟩

theorem opConstantSeq_succ (c n : Nat) :
    opConstantSeq c (n + 1) = [0, c / 256 % 256, c % 256] ++ opConstantSeq (c + 1) n := by
  simp [opConstantSeq, List.range'_succ]

/-- One step of integer-literal compilation, fully evaluated. -/
theorem compileExpr_int_eq (g : Nat) (k : Int) (st : CompilerSt) :
    compileExpr (g + 1) (.integer k) st =
      .ok { constants := st.constants ++ [.integer k],
            symtab := st.symtab,
            scopes :=
              { instructions := (currentScope st).instructions ++
                  [0, st.constants.length / 256 % 256, st.constants.length % 256],
                lastInstruction :=
                  some { opcode := .opConstant, position := (currentScope st).instructions.length },
                previousInstruction := (currentScope st).lastInstruction } :: st.scopes.tail } := by
  simp [compileExpr, addConstant, emit, setCurrentScope, make, encodeOperands, encodeOperand,
    Opcode.operandWidths, Opcode.toByte, currentScope]

theorem intPairsConstants_cons (p : Int × Int) (rest : List (Int × Int)) :
    intPairsConstants (p :: rest) =
      [Obj.integer p.1, Obj.integer p.2] ++ intPairsConstants rest := by
  simp [intPairsConstants]

theorem compilePairs_int (ps : List (Int × Int)) :
    ∀ (fuel : Nat) (st : CompilerSt),
      st.scopes ≠ [] → ps.length + 1 ≤ fuel →
      compilePairs fuel (ps.map (fun p => (Expression.integer p.1, Expression.integer p.2))) st =
        .ok { constants := st.constants ++ intPairsConstants ps,
              symtab := st.symtab,
              scopes :=
                { instructions :=
                    (currentScope st).instructions ++
                      opConstantSeq st.constants.length (2 * ps.length),
                  lastInstruction := pairsLast (currentScope st) (2 * ps.length),
                  previousInstruction := pairsPrev (currentScope st) (2 * ps.length) }
                  :: st.scopes.tail } := by
  induction ps with
  | nil =>
    intro fuel st hne hfuel
    obtain ⟨f, rfl⟩ : ∃ g, fuel = g + 1 := ⟨fuel - 1, by omega⟩
    simp only [List.map_nil, compilePairs]
    cases st with
    | mk constants symtab scopes =>
      cases scopes with
      | nil => exact absurd rfl hne
      | cons sc scs =>
        simp [intPairsConstants, opConstantSeq, pairsLast, pairsPrev, currentScope]
  | cons p rest ih =>
    intro fuel st hne hfuel
    simp only [List.length_cons] at hfuel
    obtain ⟨f, rfl⟩ : ∃ g, fuel = g + 1 := ⟨fuel - 1, by omega⟩
    obtain ⟨g, rfl⟩ : ∃ g', f = g' + 1 := ⟨f - 1, by omega⟩
    simp only [List.map_cons, compilePairs]
    rw [compileExpr_int_eq g p.1]
    simp only
    rw [compileExpr_int_eq g p.2]
    simp only
    rw [ih (g + 1)]
    · simp only [RRes.ok.injEq, CompilerSt.mk.injEq, List.cons.injEq, CompilationScope.mk.injEq,
        currentScope, List.headD_cons, List.tail_cons, intPairsConstants_cons, List.length_map,
        List.length_cons, List.length_append, List.length_nil]
      refine ⟨by simp, by trivial, ⟨?_, ?_, ?_⟩, by trivial⟩
      · have h2 : 2 * (rest.length + 1) = 2 * rest.length + 1 + 1 := by omega
        rw [h2, opConstantSeq_succ, opConstantSeq_succ]
        simp [List.append_assoc]
      · by_cases h0 : rest.length = 0
        · simp [pairsLast, h0]
        · simp only [pairsLast, if_neg (by omega : ¬2 * rest.length = 0),
            if_neg (by omega : ¬2 * (rest.length + 1) = 0), Option.some.injEq,
            EmittedInstruction.mk.injEq, List.length_append, List.length_cons, List.length_nil]
          exact ⟨by trivial, by omega⟩
      · by_cases h0 : rest.length = 0
        · simp [pairsPrev, h0]
        · simp only [pairsPrev, if_neg (by omega : ¬2 * rest.length = 0),
            if_neg (by omega : ¬2 * rest.length = 1),
            if_neg (by omega : ¬2 * (rest.length + 1) = 0),
            if_neg (by omega : ¬2 * (rest.length + 1) = 1), Option.some.injEq,
            EmittedInstruction.mk.injEq, List.length_append, List.length_cons, List.length_nil]
          exact ⟨by trivial, by omega⟩
    · simp
    · omega

/-- C7 (amended): a hash literal's pairs are compiled key,value in SOURCE
order (no sorting by the keys' string form), then `OpHash 2n` and the
statement's `OpPop` are emitted; the constant pool lists the keys and
values in source order, so two hash literals with the same pairs in
different source order compile, in general, to different bytecode.  Stated
for hash literals of integer literals. -/
theorem c7_hash_amended :
    ∀ (ps : List (Int × Int)) (fuel : Nat), ps.length + 4 ≤ fuel →
      compile fuel (intPairsProg ps) =
        .ok { instructions :=
                opConstantSeq 0 (2 * ps.length) ++
                  [19, ps.length * 2 / 256 % 256, ps.length * 2 % 256, 1],
              constants := intPairsConstants ps } := by
  intro ps fuel hfuel
  obtain ⟨f1, rfl⟩ : ∃ g, fuel = g + 1 := ⟨fuel - 1, by omega⟩
  obtain ⟨f2, rfl⟩ : ∃ g, f1 = g + 1 := ⟨f1 - 1, by omega⟩
  obtain ⟨f3, rfl⟩ : ∃ g, f2 = g + 1 := ⟨f2 - 1, by omega⟩
  simp only [compile, intPairsProg, compileStmtList, compileStmt, compileExpr]
  rw [compilePairs_int ps]
  · simp [newCompiler, emptyScope, currentScope, emit, setCurrentScope, make, encodeOperands,
      encodeOperand, Opcode.operandWidths, Opcode.toByte, compileStmtList, bytecode,
      currentInstructions, List.append_assoc]
  · simp [newCompiler]
  · omega

/-- C7 (witness): the amended statement at `{1: 2, 3: 4}`. -/
theorem c7_hash_amended_witness :
    compile 30 (intPairsProg [(1, 2), (3, 4)]) =
      .ok { instructions := opConstantSeq 0 4 ++ [19, 0, 4, 1],
            constants := intPairsConstants [(1, 2), (3, 4)] } :=
  c7_hash_amended [(1, 2), (3, 4)] 30 (by decide)

end Monkey
